import Mathlib

/-!
# k8s-helm-rest-api: a shallow embedding of the REST facade

The Go sources `utils.go`, `models.go`, `helm_client.go` and `server.go` are
embedded as Lean functions.  Values of Go's `error` type are represented by
their message (`Option String`, `none` for `nil`; `Except String` for a
`(value, error)` pair).  The Helm action engine, the JSON decoder and the
operating system are outside the repository and appear as explicit records of
operations; every call made to the engine is recorded in a call log.
-/

namespace HelmRest

/-! ## Standard library fragments used by `utils.go` -/

/-- Go `http.Header`: the values stored under each canonical key. -/
structure Header where
  entries : List (String × List String)

/-- Go `Header.Get`: the first value stored under the key, the empty string when
there is none.  The key `Content-Type` is already in canonical form. -/
def Header.Get (h : Header) (key : String) : String :=
  match List.lookup key h.entries with
  | some (v :: _) => v
  | _ => ""

/-- Go `strings.Contains`: `substr` occurs as a contiguous block of `s`. -/
def strings.Contains (s substr : String) : Bool :=
  decide (substr.data <:+: s.data)

/-- The request body as seen by `io.ReadAll`: the bytes read and the read error,
if any. -/
structure Body where
  data : List UInt8
  err : Option String

/-- The part of `http.Request` read by `decodeJSONBody`. -/
structure Request where
  Header : Header
  Body : Body

/-- The part of an `http.ResponseWriter` the handlers touch: the header map, the
status line once written, and the bytes written so far. -/
structure ResponseWriter where
  header : List (String × String)
  status : Option Nat
  body : String

/-- A writer nothing has been written to. -/
def ResponseWriter.fresh : ResponseWriter :=
  { header := [], status := none, body := "" }

/-- Go `w.Header().Set(key, value)`. -/
def ResponseWriter.HeaderSet (w : ResponseWriter) (key value : String) : ResponseWriter :=
  { w with header := (key, value) :: w.header.filter (fun kv => kv.1 != key) }

/-- Go `w.WriteHeader(code)`: the first status written wins. -/
def ResponseWriter.WriteHeader (w : ResponseWriter) (code : Nat) : ResponseWriter :=
  match w.status with
  | some _ => w
  | none => { w with status := some code }

/-- Go `w.Write(bytes)`: writes status 200 first when no status was written. -/
def ResponseWriter.Write (w : ResponseWriter) (bytes : String) : ResponseWriter :=
  let w1 := w.WriteHeader 200
  { w1 with body := w1.body ++ bytes }

/-! ## `models.go`: the response envelope -/

/-- Go `ApiResponse`; `Data` is an `interface{}`, `none` for the nil interface. -/
structure ApiResponse (D : Type) where
  Success : Bool
  Message : String
  Data : Option D

/-- The values handed to `respondWithJSON` as its `interface{}` payload. -/
inductive Payload (D : Type) where
  | apiResponse (a : ApiResponse D)
  | stringMap (m : List (String × String))
  | other (d : D)

/-! ## `encoding/json` as far as the envelope needs it -/

/-- Hexadecimal digit, lower case. -/
def hexDigit (n : Nat) : Char :=
  if n < 10 then Char.ofNat (48 + n) else Char.ofNat (87 + n)

/-- The escape `encoding/json` writes for one character of a string (HTML
escaping on, as `json.Marshal` has it). -/
def jsonEscapeChar (c : Char) : List Char :=
  let bs := Char.ofNat 92
  if c = Char.ofNat 34 then [bs, Char.ofNat 34]
  else if c = bs then [bs, bs]
  else if c = Char.ofNat 10 then [bs, 'n']
  else if c = Char.ofNat 13 then [bs, 'r']
  else if c = Char.ofNat 9 then [bs, 't']
  else if c.toNat < 32 ∨ c = '<' ∨ c = '>' ∨ c = '&' then
    [bs, 'u', '0', '0', hexDigit (c.toNat / 16), hexDigit (c.toNat % 16)]
  else if c.toNat = 8232 then [bs, 'u', '2', '0', '2', '8']
  else if c.toNat = 8233 then [bs, 'u', '2', '0', '2', '9']
  else [c]

/-- A Go string as a JSON string literal. -/
def jsonQuote (s : String) : String :=
  "\"" ++ String.mk (s.data.flatMap jsonEscapeChar) ++ "\""

/-- One `key:value` member of a `map[string]string`. -/
def jsonMember (kv : String × String) : String :=
  jsonQuote kv.1 ++ ":" ++ jsonQuote kv.2

/-- Go `json.Marshal` of a `map[string]string`: members in key order. -/
def jsonMarshalStringMap (m : List (String × String)) : String :=
  "\x7b" ++ String.intercalate ","
    ((m.insertionSort (fun a b => a.1 ≤ b.1)).map jsonMember) ++ "\x7d"

/-- Go `json.Marshal` of an `ApiResponse`, following its struct tags:
`success` always, `message` unless empty, `data` unless nil.  `enc` is the
encoder of the dynamic `Data` value, which may fail. -/
def jsonMarshalApiResponse {D : Type} (enc : D → Except String String)
    (a : ApiResponse D) : Except String String :=
  let success := "\x7b\"success\":" ++ (if a.Success then "true" else "false")
  let message := if a.Message = "" then "" else ",\"message\":" ++ jsonQuote a.Message
  match a.Data with
  | none => .ok (success ++ message ++ "\x7d")
  | some d =>
    match enc d with
    | .error err => .error err
    | .ok text => .ok (success ++ message ++ ",\"data\":" ++ text ++ "\x7d")

/-- Go `json.Marshal` on the payloads of this program. -/
def jsonMarshal {D : Type} (enc : D → Except String String) :
    Payload D → Except String String
  | .apiResponse a => jsonMarshalApiResponse enc a
  | .stringMap m => .ok (jsonMarshalStringMap m)
  | .other d => enc d

/-! ## `utils.go` -/

/-- Go `respondWithJSON`. -/
def respondWithJSON {D : Type} (enc : D → Except String String)
    (w : ResponseWriter) (code : Nat) (payload : Payload D) : ResponseWriter :=
  match jsonMarshal enc payload with
  | .error err =>
    let w1 := w.WriteHeader 500
    w1.Write ("Error marshaling JSON: " ++ err)
  | .ok response =>
    let w1 := w.HeaderSet "Content-Type" "application/json"
    let w2 := w1.WriteHeader code
    w2.Write response

/-- Go `respondWithError`. -/
def respondWithError {D : Type} (enc : D → Except String String)
    (w : ResponseWriter) (code : Nat) (message : String) : ResponseWriter :=
  respondWithJSON enc w code
    (.apiResponse { Success := false, Message := message, Data := none })

/-- Go `decodeJSONBody`.  `unmarshal` is `json.Unmarshal` at the type of `dst`:
it returns the destination as it leaves it and its error.  The result is the
destination after the call and the returned error. -/
def decodeJSONBody {D : Type} (unmarshal : List UInt8 → D → D × Option String)
    (r : Request) (dst : D) : D × Option String :=
  let contentType := r.Header.Get "Content-Type"
  if contentType ≠ "" ∧ !strings.Contains contentType "application/json" then
    (dst, some "content-type header is not application/json")
  else
    match r.Body.err with
    | some err => (dst, some err)
    | none =>
      let body := r.Body.data
      if body.length = 0 then
        (dst, some "request body is empty")
      else
        match unmarshal body dst with
        | (dst1, some err) => (dst1, some ("request body contains invalid JSON: " ++ err))
        | (dst1, none) => (dst1, none)

/-! ## Helm and client-go data used by `models.go` and `helm_client.go` -/

/-- Helm `time.Time`: an instant. -/
structure Time where
  sec : Int
  nsec : Nat
  deriving DecidableEq

/-- Helm `release.Status`, a Go string type. -/
structure Status where
  text : String
  deriving DecidableEq

/-- Go `func (x Status) String() string { return string(x) }`. -/
def Status.String (x : Status) : String := x.text

/-- A dynamically typed Go value as found in a `map[string]interface{}`. -/
inductive Dyn where
  | null
  | bool (b : Bool)
  | number (n : Int)
  | string (s : String)
  | list (xs : List Dyn)
  | map (kvs : List (String × Dyn))

/-- Go `map[string]interface{}`. -/
abbrev Values := List (String × Dyn)

/-- Helm `release.Info`. -/
structure Info where
  FirstDeployed : Time
  LastDeployed : Time
  Deleted : Time
  Description : String
  Status : Status
  Notes : String
  deriving DecidableEq

/-- Helm `chart.Metadata` (the fields this program reads). -/
structure Metadata where
  Name : String
  Version : String
  AppVersion : String
  deriving DecidableEq

/-- Helm `chart.Chart`; `Metadata` is a pointer. -/
structure Chart where
  Metadata : Option Metadata
  deriving DecidableEq

/-- Helm `release.Release`; `Info` and `Chart` are pointers. -/
structure Release where
  Name : String
  Info : Option Info
  Chart : Option Chart
  Config : Values
  Manifest : String
  Version : Int
  Namespace : String

/-! ## `models.go` -/

/-- Go `ChartInstallRequest`. -/
structure ChartInstallRequest where
  ReleaseName : String
  ChartName : String
  RepoURL : String
  Version : String
  Namespace : String
  Values : Values
  Wait : Bool
  Timeout : Int
  CreateNamespace : Bool
  DryRun : Bool
  ClientOnly : Bool
  Description : String

/-- Go `ChartUpgradeRequest`, which embeds `ChartInstallRequest`. -/
structure ChartUpgradeRequest extends ChartInstallRequest where
  ReuseValues : Bool
  ResetValues : Bool
  Force : Bool

/-- Go `ReleaseInfo`. -/
structure ReleaseInfo where
  Name : String
  Namespace : String
  Version : Int
  Status : String
  LastDeployed : String
  Chart : String
  AppVersion : String

/-- Go `ReleaseDetails`. -/
structure ReleaseDetails where
  Name : String
  Namespace : String
  Version : Int
  Status : String
  Description : String
  FirstDeployed : String
  LastDeployed : String
  Chart : String
  ChartVersion : String
  AppVersion : String
  Values : Values
  Manifest : String
  Notes : String

/-- Go `ReleaseInfoFromRelease`.  `timeString` is `Time.String`; `none` is the
nil-pointer panic. -/
def ReleaseInfoFromRelease (timeString : Time → String) (r : Release) : Option ReleaseInfo :=
  match r.Info with
  | none => none
  | some info =>
    match r.Chart with
    | none => none
    | some chart =>
      match chart.Metadata with
      | none => none
      | some md =>
        some {
          Name := r.Name
          Namespace := r.Namespace
          Version := r.Version
          Status := info.Status.String
          LastDeployed := timeString info.LastDeployed
          Chart := md.Name
          AppVersion := md.AppVersion }

/-- Go `ReleaseDetailsFromRelease`.  `timeString` is `Time.String`; `none` is the
nil-pointer panic. -/
def ReleaseDetailsFromRelease (timeString : Time → String) (r : Release) :
    Option ReleaseDetails :=
  match r.Info with
  | none => none
  | some info =>
    match r.Chart with
    | none => none
    | some chart =>
      match chart.Metadata with
      | none => none
      | some md =>
        some {
          Name := r.Name
          Namespace := r.Namespace
          Version := r.Version
          Status := info.Status.String
          Description := info.Description
          FirstDeployed := timeString info.FirstDeployed
          LastDeployed := timeString info.LastDeployed
          Chart := md.Name
          ChartVersion := md.Version
          AppVersion := md.AppVersion
          Values := r.Config
          Manifest := r.Manifest
          Notes := info.Notes }

/-! ## The engine interface -/

/-- The `genericclioptions.ConfigFlags` field this program sets; `KubeConfig` is
a `*string`. -/
structure ConfigFlags where
  KubeConfig : Option String
  usePersistentConfig : Bool
  deriving DecidableEq

/-- The client-go constructor `NewConfigFlags`: `KubeConfig` points to the empty
string. -/
def NewConfigFlags (usePersistentConfig : Bool) : ConfigFlags :=
  { KubeConfig := some "", usePersistentConfig := usePersistentConfig }

/-- Helm `action.Configuration` as the engine hands it out. -/
structure Configuration where
  handle : Nat
  deriving DecidableEq

/-- Helm `cli.EnvSettings`. -/
structure EnvSettings where
  RepositoryConfig : String
  RepositoryCache : String
  deriving DecidableEq

/-- Helm `action.ChartPathOptions`. -/
structure ChartPathOptions where
  CaFile : String
  CertFile : String
  KeyFile : String
  InsecureSkipTLSverify : Bool
  Keyring : String
  Password : String
  PassCredentialsAll : Bool
  RepoURL : String
  Username : String
  Verify : Bool
  Version : String
  deriving DecidableEq

/-- The Go zero value of `ChartPathOptions`. -/
def ChartPathOptions.zero : ChartPathOptions :=
  { CaFile := "", CertFile := "", KeyFile := "", InsecureSkipTLSverify := false,
    Keyring := "", Password := "", PassCredentialsAll := false, RepoURL := "",
    Username := "", Verify := false, Version := "" }

/-- Helm `action.Install` (the fields this program sets). `Timeout` is a
`time.Duration`, a count of nanoseconds. -/
structure Install where
  cfg : Configuration
  ChartPathOptions : ChartPathOptions
  ClientOnly : Bool
  CreateNamespace : Bool
  DryRun : Bool
  Wait : Bool
  Timeout : Int
  Namespace : String
  ReleaseName : String
  Description : String
  deriving DecidableEq

/-- Helm `action.NewInstall`: the zero value holding the configuration. -/
def NewInstall (cfg : Configuration) : Install :=
  { cfg := cfg, ChartPathOptions := ChartPathOptions.zero, ClientOnly := false,
    CreateNamespace := false, DryRun := false, Wait := false, Timeout := 0,
    Namespace := "", ReleaseName := "", Description := "" }

/-- Helm `action.Upgrade` (the fields this program sets). -/
structure Upgrade where
  cfg : Configuration
  ChartPathOptions : ChartPathOptions
  Namespace : String
  Wait : Bool
  DryRun : Bool
  ReuseValues : Bool
  ResetValues : Bool
  Force : Bool
  Description : String
  Timeout : Int
  deriving DecidableEq

/-- Helm `action.NewUpgrade`: the zero value holding the configuration. -/
def NewUpgrade (cfg : Configuration) : Upgrade :=
  { cfg := cfg, ChartPathOptions := ChartPathOptions.zero, Namespace := "",
    Wait := false, DryRun := false, ReuseValues := false, ResetValues := false,
    Force := false, Description := "", Timeout := 0 }

/-- Helm `action.History`. -/
structure History where
  cfg : Configuration
  Max : Int
  deriving DecidableEq

/-- Helm `action.NewHistory`. -/
def NewHistory (cfg : Configuration) : History :=
  { cfg := cfg, Max := 0 }

/-- The engine operations this program calls, over an engine state `σ` (cluster,
release storage, repositories).  Each returns its result and the next state. -/
structure Engine (σ : Type) where
  Init : ConfigFlags → String → String → σ → Except String Configuration × σ
  LocateChart : ChartPathOptions → String → EnvSettings → σ → Except String String × σ
  Load : String → σ → Except String Chart × σ
  InstallRun : Install → Chart → Values → σ → Except String Release × σ
  UpgradeRun : Upgrade → String → Chart → Values → σ → Except String Release × σ
  HistoryRun : History → String → σ → Except String (List Release) × σ

/-- One call made to the engine, with its arguments. -/
inductive Call where
  | init (flags : ConfigFlags) (ns : String) (driver : String)
  | locateChart (o : ChartPathOptions) (name : String) (settings : EnvSettings)
  | load (path : String)
  | installRun (i : Install) (chart : Chart) (vals : Values)
  | upgradeRun (u : Upgrade) (name : String) (chart : Chart) (vals : Values)
  | historyRun (h : History) (name : String)

/-- What an adapter call leaves behind: the returned `(value, error)` pair, the
engine state, and the engine calls made, in order. -/
structure Outcome (σ α : Type) where
  result : Except String α
  world : σ
  calls : List Call

/-- The operating-system and library environment read by the program. -/
structure Environ where
  Getenv : String → String
  UserHomeDir : Except String String
  cliNew : EnvSettings

/-! ## `server.go`: the server record -/

/-- The handlers registered by `setupRoutes`. -/
inductive HandlerName where
  | healthHandler
  | installChartHandler
  | upgradeChartHandler
  | uninstallChartHandler
  | listReleasesHandler
  | getReleaseHandler
  | getReleaseHistoryHandler
  | getReleaseStatusHandler
  deriving DecidableEq

/-- One route of the sub-router: base path, path template, method, handler. -/
structure Route where
  base : String
  path : String
  method : String
  handler : HandlerName
  deriving DecidableEq

/-- The part of `mux.Router` this program configures. -/
structure Router where
  routes : List Route
  middleware : List String

/-- Go `Server`. -/
structure Server where
  Router : Router
  HelmEnv : EnvSettings
  KubeConfig : String
  RegistryURL : String

/-! ## `helm_client.go` -/

/-- Go `int64` wrap-around. -/
def wrap64 (x : Int) : Int :=
  (x + 2 ^ 63) % 2 ^ 64 - 2 ^ 63

/-- Go `time.Second`, in nanoseconds. -/
def time.Second : Int := 1000000000

/-- Go `Server.GetActionConfig`. -/
def Server.GetActionConfig {σ : Type} (E : Engine σ) (env : Environ) (s : Server)
    (ns : String) (w : σ) : Outcome σ Configuration :=
  let inCluster := env.Getenv "IN_CLUSTER" == "true"
  let configFlags :=
    if inCluster then
      NewConfigFlags false
    else
      { NewConfigFlags false with KubeConfig := some s.KubeConfig }
  let driver := env.Getenv "HELM_DRIVER"
  match E.Init configFlags ns driver w with
  | (.error err, w1) =>
    { result := .error ("failed to initialize action configuration: " ++ err),
      world := w1, calls := [.init configFlags ns driver] }
  | (.ok actionConfig, w1) =>
    { result := .ok actionConfig, world := w1, calls := [.init configFlags ns driver] }

/-- The install action as `InstallChart` sets it up before locating the chart. -/
def installAction (cfg : Configuration) (params : ChartInstallRequest) : Install :=
  let install := NewInstall cfg
  let install := { install with
    ReleaseName := params.ReleaseName
    Namespace := params.Namespace
    Wait := params.Wait
    CreateNamespace := params.CreateNamespace
    DryRun := params.DryRun
    ClientOnly := params.ClientOnly
    Description := params.Description }
  let install :=
    if params.Timeout > 0 then
      { install with Timeout := wrap64 (params.Timeout * time.Second) }
    else install
  if params.RepoURL ≠ "" then
    let install := { install with
      ChartPathOptions := { install.ChartPathOptions with RepoURL := params.RepoURL } }
    if params.Version ≠ "" then
      { install with
        ChartPathOptions := { install.ChartPathOptions with Version := params.Version } }
    else install
  else install

/-- Go `Server.InstallChart`. -/
def Server.InstallChart {σ : Type} (E : Engine σ) (env : Environ) (s : Server)
    (params : ChartInstallRequest) (w : σ) : Outcome σ Release :=
  let c := s.GetActionConfig E env params.Namespace w
  match c.result with
  | .error err =>
    { result := .error ("failed to create action config: " ++ err),
      world := c.world, calls := c.calls }
  | .ok cfg =>
    let install := installAction cfg params
    let locate := Call.locateChart install.ChartPathOptions params.ChartName s.HelmEnv
    match E.LocateChart install.ChartPathOptions params.ChartName s.HelmEnv c.world with
    | (.error err, w1) =>
      { result := .error ("failed to locate chart: " ++ err),
        world := w1, calls := c.calls ++ [locate] }
    | (.ok chartPath, w1) =>
      match E.Load chartPath w1 with
      | (.error err, w2) =>
        { result := .error ("failed to load chart: " ++ err),
          world := w2, calls := c.calls ++ [locate, .load chartPath] }
      | (.ok chart, w2) =>
        let run := E.InstallRun install chart params.Values w2
        { result := run.1, world := run.2,
          calls := c.calls ++ [locate, .load chartPath,
            .installRun install chart params.Values] }

/-- The upgrade action as `UpgradeChart` sets it up before locating the chart. -/
def upgradeAction (cfg : Configuration) (params : ChartUpgradeRequest) : Upgrade :=
  let upgrade := NewUpgrade cfg
  let upgrade := { upgrade with
    Namespace := params.Namespace
    Wait := params.Wait
    DryRun := params.DryRun
    ReuseValues := params.ReuseValues
    ResetValues := params.ResetValues
    Force := params.Force
    Description := params.Description }
  let upgrade :=
    if params.Timeout > 0 then
      { upgrade with Timeout := wrap64 (params.Timeout * time.Second) }
    else upgrade
  if params.RepoURL ≠ "" then
    let upgrade := { upgrade with
      ChartPathOptions := { upgrade.ChartPathOptions with RepoURL := params.RepoURL } }
    if params.Version ≠ "" then
      { upgrade with
        ChartPathOptions := { upgrade.ChartPathOptions with Version := params.Version } }
    else upgrade
  else upgrade

/-- Go `Server.UpgradeChart`. -/
def Server.UpgradeChart {σ : Type} (E : Engine σ) (env : Environ) (s : Server)
    (params : ChartUpgradeRequest) (w : σ) : Outcome σ Release :=
  let c := s.GetActionConfig E env params.Namespace w
  match c.result with
  | .error err =>
    { result := .error ("failed to create action config: " ++ err),
      world := c.world, calls := c.calls }
  | .ok cfg =>
    let upgrade := upgradeAction cfg params
    let locate := Call.locateChart upgrade.ChartPathOptions params.ChartName s.HelmEnv
    match E.LocateChart upgrade.ChartPathOptions params.ChartName s.HelmEnv c.world with
    | (.error err, w1) =>
      { result := .error ("failed to locate chart: " ++ err),
        world := w1, calls := c.calls ++ [locate] }
    | (.ok chartPath, w1) =>
      match E.Load chartPath w1 with
      | (.error err, w2) =>
        { result := .error ("failed to load chart: " ++ err),
          world := w2, calls := c.calls ++ [locate, .load chartPath] }
      | (.ok chart, w2) =>
        let run := E.UpgradeRun upgrade params.ReleaseName chart params.Values w2
        { result := run.1, world := run.2,
          calls := c.calls ++ [locate, .load chartPath,
            .upgradeRun upgrade params.ReleaseName chart params.Values] }

/-- Go `Server.GetReleaseHistory`. -/
def Server.GetReleaseHistory {σ : Type} (E : Engine σ) (env : Environ) (s : Server)
    (name ns : String) (w : σ) : Outcome σ (List Release) :=
  let c := s.GetActionConfig E env ns w
  match c.result with
  | .error err =>
    { result := .error ("failed to create action config: " ++ err),
      world := c.world, calls := c.calls }
  | .ok cfg =>
    let history := NewHistory cfg
    let history := { history with Max := 256 }
    let run := E.HistoryRun history name c.world
    { result := run.1, world := run.2, calls := c.calls ++ [.historyRun history name] }

/-! ## `server.go` -/

/-- Splits a path at every slash. -/
def splitSlash : List Char → List (List Char)
  | [] => [[]]
  | c :: cs =>
    match splitSlash cs with
    | [] => [[c]]
    | x :: xs => if c = '/' then [] :: x :: xs else (c :: x) :: xs

/-- The element stack of `filepath.Clean` after one more path element. -/
def cleanStep (rooted : Bool) (stack : List (List Char)) (elem : List Char) :
    List (List Char) :=
  if elem = [] ∨ elem = ['.'] then stack
  else if elem = ['.', '.'] then
    match stack.getLast? with
    | none => if rooted then stack else stack ++ [elem]
    | some top => if top = ['.', '.'] then stack ++ [elem] else stack.dropLast
  else stack ++ [elem]

/-- Go `filepath.Clean` on Unix. -/
def filepath.Clean (path : String) : String :=
  if path = "" then "."
  else
    let rooted := path.data.head? == some '/'
    let stack := (splitSlash path.data).foldl (cleanStep rooted) []
    let out := (if rooted then "/" else "") ++
      String.intercalate "/" (stack.map String.mk)
    if out = "" then "." else out

/-- Go `filepath.Join` on Unix: the elements from the first non-empty one on,
joined by a slash and cleaned. -/
def filepath.Join (elem : List String) : String :=
  match elem.dropWhile (fun e => e == "") with
  | [] => ""
  | es => filepath.Clean (String.intercalate "/" es)

/-- Go `Server.setupRoutes`. -/
def Server.setupRoutes (s : Server) : Server :=
  let api := "/api/v1"
  let routes := s.Router.routes ++ [
    { base := api, path := "/health", method := "GET", handler := .healthHandler },
    { base := api, path := "/charts/install", method := "POST",
      handler := .installChartHandler },
    { base := api, path := "/charts/upgrade", method := "PUT",
      handler := .upgradeChartHandler },
    { base := api, path := "/charts/uninstall", method := "DELETE",
      handler := .uninstallChartHandler },
    { base := api, path := "/releases", method := "GET", handler := .listReleasesHandler },
    { base := api, path := "/releases/\x7bname\x7d", method := "GET",
      handler := .getReleaseHandler },
    { base := api, path := "/releases/\x7bname\x7d/history", method := "GET",
      handler := .getReleaseHistoryHandler },
    { base := api, path := "/releases/\x7bname\x7d/status", method := "GET",
      handler := .getReleaseStatusHandler }]
  { s with Router := { routes := routes,
                       middleware := s.Router.middleware ++ ["logMiddleware"] } }

/-- Go `NewServer`: the server and the lines it logs. -/
def NewServer (env : Environ) : Server × List String :=
  let kubeconfig := env.Getenv "KUBECONFIG"
  let resolved : String × List String :=
    if kubeconfig = "" then
      match env.UserHomeDir with
      | .error err => (kubeconfig, ["Failed to get user home directory: " ++ err])
      | .ok home => (filepath.Join [home, ".kube", "config"], [])
    else (kubeconfig, [])
  let helmEnv := env.cliNew
  let s : Server :=
    { Router := { routes := [], middleware := [] },
      HelmEnv := helmEnv,
      KubeConfig := resolved.1,
      RegistryURL := env.Getenv "HELM_REGISTRY_URL" }
  (s.setupRoutes, resolved.2)

/-- Go `Server.healthHandler`. -/
def Server.healthHandler {D : Type} (enc : D → Except String String) (_s : Server)
    (w : ResponseWriter) (_r : Request) : ResponseWriter :=
  respondWithJSON enc w 200 (.stringMap [("status", "healthy")])

/-! ## Reading the call log -/

/-- The install actions run, in order. -/
def installRuns (calls : List Call) : List Install :=
  calls.filterMap fun c =>
    match c with
    | .installRun i _ _ => some i
    | _ => none

/-- The chart path options and chart names handed to chart location, in order. -/
def locateCalls (calls : List Call) : List (ChartPathOptions × String) :=
  calls.filterMap fun c =>
    match c with
    | .locateChart o name _ => some (o, name)
    | _ => none

/-- The history actions run, in order. -/
def historyRuns (calls : List Call) : List History :=
  calls.filterMap fun c =>
    match c with
    | .historyRun h _ => some h
    | _ => none

/-- The message of a returned error, `none` for nil. -/
def errorMessage {α : Type} : Except String α → Option String
  | .error err => some err
  | .ok _ => none

/-! ## Concrete collaborators -/

/-- The bytes of an ASCII text. -/
def asciiBytes (s : String) : List UInt8 :=
  s.data.map fun c => UInt8.ofNat c.toNat

/-- A fragment of `json.Unmarshal` into a record whose only field is
`releaseName` (here the destination is that field): the empty object leaves the
destination alone, the object naming `web` stores it; other bodies are taken as
refused. -/
def unmarshalReleaseName (body : List UInt8) (dst : String) : String × Option String :=
  if body = asciiBytes "\x7b\x7d" then (dst, none)
  else if body = asciiBytes "\x7b\"releaseName\":\"web\"\x7d" then ("web", none)
  else (dst, some "invalid character")

/-- The release the reference engine records for an install. -/
def recordedRelease (name ns : String) (chart : Chart) (vals : Values) (rev : Int) : Release :=
  { Name := name,
    Info := some { FirstDeployed := ⟨0, 0⟩, LastDeployed := ⟨0, 0⟩, Deleted := ⟨0, 0⟩,
                   Description := "Install complete", Status := ⟨"deployed"⟩, Notes := "" },
    Chart := some chart, Config := vals, Manifest := "", Version := rev, Namespace := ns }

/-- A reference engine over a release ledger (all revisions, oldest first).
Initialisation, chart location and loading succeed for a named chart; the install
and upgrade actions refuse an empty release name and append a revision; the
history action returns every stored revision of the release, as Helm's
`action.History.Run` does: it hands back `cfg.Releases.History(name)` and never
reads `Max`, which only the command-line client applies. -/
def ledgerEngine : Engine (List Release) where
  Init := fun _ _ _ w => (.ok { handle := 1 }, w)
  LocateChart := fun _ name _ w =>
    if name = "" then (.error "chart name is empty", w) else (.ok ("/charts/" ++ name), w)
  Load := fun path w =>
    (.ok { Metadata := some { Name := path, Version := "1.0.0", AppVersion := "1.0" } }, w)
  InstallRun := fun i chart vals w =>
    if i.ReleaseName = "" then (.error "release name is invalid", w)
    else
      let r := recordedRelease i.ReleaseName i.Namespace chart vals 1
      (.ok r, w ++ [r])
  UpgradeRun := fun u name chart vals w =>
    if name = "" then (.error "release name is invalid", w)
    else
      let r := recordedRelease name u.Namespace chart vals (w.length + 1)
      (.ok r, w ++ [r])
  HistoryRun := fun _ name w =>
    match w.filter (fun r => r.Name == name) with
    | [] => (.error "release: not found", w)
    | rs => (.ok rs, w)

/-- A process environment: no variables set, home directory `/home/app`. -/
def plainEnviron : Environ :=
  { Getenv := fun _ => "",
    UserHomeDir := .ok "/home/app",
    cliNew := { RepositoryConfig := "/home/app/.config/helm/repositories.yaml",
                RepositoryCache := "/home/app/.cache/helm/repository" } }

/-- A request to install chart `nginx` as release `web`. -/
def webRequest : ChartInstallRequest :=
  { ReleaseName := "web", ChartName := "nginx", RepoURL := "", Version := "",
    Namespace := "default", Values := [], Wait := false, Timeout := 0,
    CreateNamespace := false, DryRun := false, ClientOnly := false, Description := "" }

/-- A ledger holding `n` revisions of release `web`. -/
def webLedger (n : Nat) : List Release :=
  (List.range n).map fun i =>
    recordedRelease "web" "default" { Metadata := none } [] (i + 1)

/-! ## Request decoding (`decodeJSONBody`) -/

/-- C1, as stated, fails: a request without a Content-Type header (its header
value, the empty string, does not contain `application/json`) and with a valid
JSON body is decoded: `decodeJSONBody` returns nil and the destination holds the
decoded release name. -/
theorem decodeJSONBody_absent_content_type_decodes :
    strings.Contains ((Header.mk []).Get "Content-Type") "application/json" = false ∧
    decodeJSONBody unmarshalReleaseName
      { Header := ⟨[]⟩,
        Body := ⟨asciiBytes "\x7b\"releaseName\":\"web\"\x7d", none⟩ } "" = ("web", none) := by
  decide

/-- C1, amended: when the Content-Type header value is non-empty and does not
contain `application/json`, `decodeJSONBody` returns the content-type error for
every body and every decoder, and the destination is left as it was. -/
theorem decodeJSONBody_rejects_other_content_type {D : Type}
    (unmarshal : List UInt8 → D → D × Option String) (r : Request) (dst : D)
    (hne : r.Header.Get "Content-Type" ≠ "")
    (hct : strings.Contains (r.Header.Get "Content-Type") "application/json" = false) :
    decodeJSONBody unmarshal r dst =
      (dst, some "content-type header is not application/json") := by
  simp [decodeJSONBody, hne, hct]

/-- C1, amended, at a `text/plain` request carrying a valid JSON body. -/
theorem decodeJSONBody_rejects_other_content_type_witness :
    decodeJSONBody unmarshalReleaseName
      { Header := ⟨[("Content-Type", ["text/plain"])]⟩,
        Body := ⟨asciiBytes "\x7b\"releaseName\":\"web\"\x7d", none⟩ } "" =
      ("", some "content-type header is not application/json") :=
  decodeJSONBody_rejects_other_content_type unmarshalReleaseName
    { Header := ⟨[("Content-Type", ["text/plain"])]⟩,
      Body := ⟨asciiBytes "\x7b\"releaseName\":\"web\"\x7d", none⟩ } ""
    (by decide) (by decide)

/-- C2: a request whose body has length zero makes `decodeJSONBody` return an
error, whatever its Content-Type header, read error and decoder, and the
destination is left as it was. -/
theorem decodeJSONBody_empty_body_fails {D : Type}
    (unmarshal : List UInt8 → D → D × Option String) (r : Request) (dst : D)
    (hlen : r.Body.data.length = 0) :
    (decodeJSONBody unmarshal r dst).1 = dst ∧
    (decodeJSONBody unmarshal r dst).2 ≠ none := by
  unfold decodeJSONBody
  cases herr : r.Body.err <;> simp only [hlen] <;> split_ifs <;> simp

/-- C2 at an empty body sent as `application/json`. -/
theorem decodeJSONBody_empty_body_fails_witness :
    (decodeJSONBody unmarshalReleaseName
      { Header := ⟨[("Content-Type", ["application/json"])]⟩, Body := ⟨[], none⟩ } "old").1
      = "old" ∧
    (decodeJSONBody unmarshalReleaseName
      { Header := ⟨[("Content-Type", ["application/json"])]⟩, Body := ⟨[], none⟩ } "old").2
      ≠ none :=
  decodeJSONBody_empty_body_fails unmarshalReleaseName
    { Header := ⟨[("Content-Type", ["application/json"])]⟩, Body := ⟨[], none⟩ } "old"
    (by decide)

/-! ## Release mapping (`ReleaseDetailsFromRelease`) -/

/-- C3: for a release whose `Info`, `Chart` and `Chart.Metadata` are present,
`ReleaseDetailsFromRelease` returns a record whose Name, Namespace, Version,
Manifest and Values are the release's own, whose Chart, ChartVersion and
AppVersion are the chart metadata's Name, Version and AppVersion, whose Notes and
Description are the info's and whose Status is the string form of the info's
status; and a second such release mapped to the same record agrees with the
first on every one of these fields. -/
theorem ReleaseDetailsFromRelease_carries_fields (timeString : Time → String)
    (r : Release) (info : Info) (chart : Chart) (md : Metadata)
    (hinfo : r.Info = some info) (hchart : r.Chart = some chart)
    (hmd : chart.Metadata = some md) :
    (∃ d, ReleaseDetailsFromRelease timeString r = some d ∧
      d.Name = r.Name ∧ d.Namespace = r.Namespace ∧ d.Version = r.Version ∧
      d.Manifest = r.Manifest ∧ d.Values = r.Config ∧
      d.Chart = md.Name ∧ d.ChartVersion = md.Version ∧ d.AppVersion = md.AppVersion ∧
      d.Notes = info.Notes ∧ d.Description = info.Description ∧
      d.Status = info.Status.String) ∧
    (∀ (r2 : Release) (info2 : Info) (chart2 : Chart) (md2 : Metadata),
      r2.Info = some info2 → r2.Chart = some chart2 → chart2.Metadata = some md2 →
      ReleaseDetailsFromRelease timeString r2 = ReleaseDetailsFromRelease timeString r →
      r2.Name = r.Name ∧ r2.Namespace = r.Namespace ∧ r2.Version = r.Version ∧
      r2.Manifest = r.Manifest ∧ r2.Config = r.Config ∧
      md2.Name = md.Name ∧ md2.Version = md.Version ∧ md2.AppVersion = md.AppVersion ∧
      info2.Notes = info.Notes ∧ info2.Description = info.Description ∧
      info2.Status = info.Status) := by
  constructor
  · simp [ReleaseDetailsFromRelease, hinfo, hchart, hmd]
  · intro r2 info2 chart2 md2 h2i h2c h2m heq
    simp only [ReleaseDetailsFromRelease, hinfo, hchart, hmd, h2i, h2c, h2m,
      Option.some.injEq, ReleaseDetails.mk.injEq, Status.String] at heq
    obtain ⟨h1, h2, h3, h4, h5, _, _, h8, h9, h10, h11, h12, h13⟩ := heq
    have hs : info2.Status = info.Status := by
      cases hA : info2.Status
      cases hB : info.Status
      simp [hA, hB] at h4
      simp [h4]
    exact ⟨h1, h2, h3, h12, h11, h8, h9, h10, h13, h5, hs⟩

/-- C3 at the release recorded for `web`. -/
theorem ReleaseDetailsFromRelease_carries_fields_witness :
    (∃ d, ReleaseDetailsFromRelease (fun t => toString t.sec)
        (recordedRelease "web" "default"
          { Metadata := some { Name := "nginx", Version := "1.2.3", AppVersion := "1.25" } }
          [("replicas", Dyn.number 2)] 4) = some d ∧
      d.Name = "web" ∧ d.Namespace = "default" ∧ d.Version = 4 ∧
      d.Manifest = "" ∧ d.Values = [("replicas", Dyn.number 2)] ∧
      d.Chart = "nginx" ∧ d.ChartVersion = "1.2.3" ∧ d.AppVersion = "1.25" ∧
      d.Notes = "" ∧ d.Description = "Install complete" ∧
      d.Status = "deployed") :=
  (ReleaseDetailsFromRelease_carries_fields (fun t => toString t.sec)
    (recordedRelease "web" "default"
      { Metadata := some { Name := "nginx", Version := "1.2.3", AppVersion := "1.25" } }
      [("replicas", Dyn.number 2)] 4)
    { FirstDeployed := ⟨0, 0⟩, LastDeployed := ⟨0, 0⟩, Deleted := ⟨0, 0⟩,
      Description := "Install complete", Status := ⟨"deployed"⟩, Notes := "" }
    { Metadata := some { Name := "nginx", Version := "1.2.3", AppVersion := "1.25" } }
    { Name := "nginx", Version := "1.2.3", AppVersion := "1.25" }
    rfl rfl rfl).1

/-! ## Response bodies (`respondWithJSON`, `respondWithError`, `healthHandler`) -/

/-- Writing the status line leaves the body alone. -/
theorem ResponseWriter.WriteHeader_body (w : ResponseWriter) (code : Nat) :
    (w.WriteHeader code).body = w.body := by
  unfold ResponseWriter.WriteHeader
  cases w.status <;> rfl

/-- `Write` appends to the body. -/
theorem ResponseWriter.Write_body (w : ResponseWriter) (bytes : String) :
    (w.Write bytes).body = w.body ++ bytes := by
  simp [ResponseWriter.Write, ResponseWriter.WriteHeader_body]

/-- Setting a header leaves the body alone. -/
theorem ResponseWriter.HeaderSet_body (w : ResponseWriter) (key value : String) :
    (w.HeaderSet key value).body = w.body := rfl

/-- The status line after `WriteHeader`. -/
theorem ResponseWriter.WriteHeader_status (w : ResponseWriter) (code : Nat) :
    (w.WriteHeader code).status = some (w.status.getD code) := by
  unfold ResponseWriter.WriteHeader
  cases h : w.status <;> simp [h]

/-- Every encoded envelope opens with the `success` member. -/
theorem jsonMarshalApiResponse_opening {D : Type} (enc : D → Except String String)
    (a : ApiResponse D) (s : String) (h : jsonMarshalApiResponse enc a = .ok s) :
    ∃ rest, s = "\x7b\"success\":" ++ rest := by
  unfold jsonMarshalApiResponse at h
  cases hd : a.Data with
  | none =>
    simp only [hd, Except.ok.injEq] at h
    exact ⟨_, by rw [← h, String.append_assoc, String.append_assoc]⟩
  | some d =>
    simp only [hd] at h
    cases he : enc d with
    | error err => simp [he] at h
    | ok text =>
      simp only [he, Except.ok.injEq] at h
      subst h
      refine ⟨(if a.Success = true then "true" else "false") ++
        ((if a.Message = "" then "" else ",\"message\":" ++ jsonQuote a.Message) ++
          (",\"data\":" ++ (text ++ "\x7d"))), ?_⟩
      simp only [String.append_assoc]

/-- The health body is no encoded envelope. -/
theorem health_text_not_envelope {D : Type} (enc : D → Except String String)
    (a : ApiResponse D) :
    jsonMarshal enc (.apiResponse a) ≠ .ok "\x7b\"status\":\"healthy\"\x7d" := by
  intro h
  obtain ⟨rest, hrest⟩ := jsonMarshalApiResponse_opening enc a _ h
  have hdata := congrArg String.data hrest
  rw [String.data_append] at hdata
  have h4 := congrArg (fun l => l.get? 4) hdata
  simp at h4

/-- The text written for a marshalling failure is no encoded envelope. -/
theorem failure_text_not_envelope {D : Type} (enc : D → Except String String)
    (a : ApiResponse D) (err : String) :
    jsonMarshal enc (.apiResponse a) ≠ .ok ("Error marshaling JSON: " ++ err) := by
  intro h
  obtain ⟨rest, hrest⟩ := jsonMarshalApiResponse_opening enc a _ h
  have hdata := congrArg String.data hrest
  rw [String.data_append, String.data_append] at hdata
  have h0 := congrArg (fun l => l.get? 0) hdata
  simp at h0

/-- C5, as stated, fails: the body `healthHandler` writes is the bare object
with the `status` member, which is the encoding of no `ApiResponse`; and for a
payload that fails to marshal `respondWithJSON` writes a plain error text, which
is the encoding of no `ApiResponse` either. -/
theorem healthHandler_body_not_envelope :
    (Server.healthHandler (fun (_ : Unit) => Except.ok "null") (NewServer plainEnviron).1
        ResponseWriter.fresh ⟨⟨[]⟩, ⟨[], none⟩⟩).body = "\x7b\"status\":\"healthy\"\x7d" ∧
    (∀ (D : Type) (enc : D → Except String String) (a : ApiResponse D),
      jsonMarshal enc (.apiResponse a) ≠ .ok "\x7b\"status\":\"healthy\"\x7d") ∧
    (respondWithJSON (fun (_ : Unit) => Except.error "json: unsupported type: chan int")
        ResponseWriter.fresh 200 (.other ())).body =
      "Error marshaling JSON: json: unsupported type: chan int" ∧
    (∀ (D : Type) (enc : D → Except String String) (a : ApiResponse D),
      jsonMarshal enc (.apiResponse a) ≠
        .ok "Error marshaling JSON: json: unsupported type: chan int") :=
  ⟨by decide, fun _ enc a => health_text_not_envelope enc a, by decide,
    fun _ enc a => failure_text_not_envelope enc a "json: unsupported type: chan int"⟩

/-- C5, amended: `respondWithError` always writes the encoding of the envelope
with `success` false and the given message; `respondWithJSON` writes the
encoding of its payload whenever the payload marshals, which is an envelope when
the payload is an `ApiResponse`, and writes status 500 with the text
`Error marshaling JSON: ` followed by the error when it does not; `healthHandler`
writes the object with the single member `status`. -/
theorem response_bodies {D : Type} (enc : D → Except String String)
    (w : ResponseWriter) (code : Nat) :
    (∀ message : String, ∃ s,
      jsonMarshalApiResponse enc
        ({ Success := false, Message := message, Data := none } : ApiResponse D) = .ok s ∧
      (respondWithError enc w code message).body = w.body ++ s) ∧
    (∀ (payload : Payload D) (s : String), jsonMarshal enc payload = .ok s →
      (respondWithJSON enc w code payload).body = w.body ++ s ∧
      (respondWithJSON enc w code payload).status = some (w.status.getD code)) ∧
    (∀ (a : ApiResponse D) (s : String), jsonMarshalApiResponse enc a = .ok s →
      (respondWithJSON enc w code (.apiResponse a)).body = w.body ++ s) ∧
    (∀ (payload : Payload D) (err : String), jsonMarshal enc payload = .error err →
      (respondWithJSON enc w code payload).body = w.body ++ ("Error marshaling JSON: " ++ err) ∧
      (respondWithJSON enc w code payload).status = some (w.status.getD 500)) ∧
    (∀ (s : Server) (r : Request),
      (Server.healthHandler enc s w r).body = w.body ++ "\x7b\"status\":\"healthy\"\x7d") := by
  have hok : ∀ (c : Nat) (payload : Payload D) (s : String), jsonMarshal enc payload = .ok s →
      (respondWithJSON enc w c payload).body = w.body ++ s ∧
      (respondWithJSON enc w c payload).status = some (w.status.getD c) := by
    intro c payload s h
    constructor
    · simp [respondWithJSON, h, ResponseWriter.Write_body, ResponseWriter.WriteHeader_body,
        ResponseWriter.HeaderSet_body]
    · simp only [respondWithJSON, h, ResponseWriter.Write, ResponseWriter.WriteHeader,
        ResponseWriter.HeaderSet]
      cases hs : w.status <;> simp
  refine ⟨?_, hok code, ?_, ?_, ?_⟩
  · intro message
    refine ⟨_, rfl, ?_⟩
    exact (hok code (.apiResponse { Success := false, Message := message, Data := none }) _ rfl).1
  · intro a s h
    exact (hok code (.apiResponse a) s h).1
  · intro payload err h
    constructor
    · simp [respondWithJSON, h, ResponseWriter.Write_body, ResponseWriter.WriteHeader_body]
    · simp only [respondWithJSON, h, ResponseWriter.Write, ResponseWriter.WriteHeader]
      cases hs : w.status <;> simp [hs]
  · intro s r
    exact (hok 200 (.stringMap [("status", "healthy")]) "\x7b\"status\":\"healthy\"\x7d" (by
      simp only [jsonMarshal, Except.ok.injEq]
      decide)).1

/-- C5, amended, at a 404 error response on a fresh writer. -/
theorem response_bodies_witness :
    ∃ s, jsonMarshalApiResponse (fun (_ : Unit) => Except.ok "null")
        ({ Success := false, Message := "release: not found", Data := none }) = .ok s ∧
      (respondWithError (fun (_ : Unit) => Except.ok "null") ResponseWriter.fresh 404
        "release: not found").body = ResponseWriter.fresh.body ++ s :=
  (response_bodies (fun (_ : Unit) => Except.ok "null") ResponseWriter.fresh 404).1
    "release: not found"

/-! ## Engine configuration (`GetActionConfig`) -/

/-- `GetActionConfig` makes one engine call, the initialisation. -/
theorem GetActionConfig_calls_init {σ : Type} (E : Engine σ) (env : Environ) (s : Server)
    (ns : String) (w : σ) :
    ∃ flags, (s.GetActionConfig E env ns w).calls =
      [.init flags ns (env.Getenv "HELM_DRIVER")] := by
  unfold Server.GetActionConfig
  simp only []
  split <;> exact ⟨_, rfl⟩

/-- No install action and no chart location is run by `GetActionConfig`. -/
theorem GetActionConfig_no_action {σ : Type} (E : Engine σ) (env : Environ) (s : Server)
    (ns : String) (w : σ) :
    installRuns (s.GetActionConfig E env ns w).calls = [] ∧
    locateCalls (s.GetActionConfig E env ns w).calls = [] ∧
    historyRuns (s.GetActionConfig E env ns w).calls = [] := by
  obtain ⟨flags, h⟩ := GetActionConfig_calls_init E env s ns w
  rw [h]
  exact ⟨rfl, rfl, rfl⟩

/-- C8: `GetActionConfig` initialises the engine once, with the given namespace
and with connection flags that are the untouched defaults (kubeconfig path
empty) when `IN_CLUSTER` is `true`, and that carry the server's `KubeConfig` as
kubeconfig path otherwise; it returns a wrapped error when that initialisation
fails and the initialised configuration when it succeeds. -/
theorem GetActionConfig_selects_connection {σ : Type} (E : Engine σ) (env : Environ)
    (s : Server) (ns : String) (w : σ) :
    ∃ flags : ConfigFlags,
      (env.Getenv "IN_CLUSTER" = "true" →
        flags = NewConfigFlags false ∧ flags.KubeConfig = some "") ∧
      (env.Getenv "IN_CLUSTER" ≠ "true" →
        flags = { NewConfigFlags false with KubeConfig := some s.KubeConfig } ∧
        flags.KubeConfig = some s.KubeConfig) ∧
      (s.GetActionConfig E env ns w).calls = [.init flags ns (env.Getenv "HELM_DRIVER")] ∧
      (s.GetActionConfig E env ns w).world =
        (E.Init flags ns (env.Getenv "HELM_DRIVER") w).2 ∧
      (∀ err, (E.Init flags ns (env.Getenv "HELM_DRIVER") w).1 = .error err →
        (s.GetActionConfig E env ns w).result =
          .error ("failed to initialize action configuration: " ++ err)) ∧
      (∀ cfg, (E.Init flags ns (env.Getenv "HELM_DRIVER") w).1 = .ok cfg →
        (s.GetActionConfig E env ns w).result = .ok cfg) := by
  refine ⟨if env.Getenv "IN_CLUSTER" = "true" then NewConfigFlags false
    else { NewConfigFlags false with KubeConfig := some s.KubeConfig }, ?_, ?_, ?_⟩
  · intro h
    simp [h, NewConfigFlags]
  · intro h
    simp [h]
  · unfold Server.GetActionConfig
    simp only [beq_iff_eq]
    rcases hI : E.Init (if env.Getenv "IN_CLUSTER" = "true" then NewConfigFlags false
      else { NewConfigFlags false with KubeConfig := some s.KubeConfig }) ns
      (env.Getenv "HELM_DRIVER") w with ⟨res, w1⟩
    cases res <;> simp

/-- C8 at a process without `IN_CLUSTER`, on the reference engine. -/
theorem GetActionConfig_selects_connection_witness :
    ∃ flags : ConfigFlags,
      (plainEnviron.Getenv "IN_CLUSTER" = "true" →
        flags = NewConfigFlags false ∧ flags.KubeConfig = some "") ∧
      (plainEnviron.Getenv "IN_CLUSTER" ≠ "true" →
        flags = { NewConfigFlags false with
                  KubeConfig := some (NewServer plainEnviron).1.KubeConfig } ∧
        flags.KubeConfig = some (NewServer plainEnviron).1.KubeConfig) ∧
      ((NewServer plainEnviron).1.GetActionConfig ledgerEngine plainEnviron "default" []).calls
        = [.init flags "default" (plainEnviron.Getenv "HELM_DRIVER")] ∧
      ((NewServer plainEnviron).1.GetActionConfig ledgerEngine plainEnviron "default" []).world
        = (ledgerEngine.Init flags "default" (plainEnviron.Getenv "HELM_DRIVER") []).2 ∧
      (∀ err, (ledgerEngine.Init flags "default" (plainEnviron.Getenv "HELM_DRIVER") []).1
          = .error err →
        ((NewServer plainEnviron).1.GetActionConfig ledgerEngine plainEnviron "default"
          []).result = .error ("failed to initialize action configuration: " ++ err)) ∧
      (∀ cfg, (ledgerEngine.Init flags "default" (plainEnviron.Getenv "HELM_DRIVER") []).1
          = .ok cfg →
        ((NewServer plainEnviron).1.GetActionConfig ledgerEngine plainEnviron "default"
          []).result = .ok cfg) :=
  GetActionConfig_selects_connection ledgerEngine plainEnviron (NewServer plainEnviron).1
    "default" []

/-! ## Chart installation and upgrade (`InstallChart`, `UpgradeChart`) -/

/-- `InstallChart` when engine configuration fails. -/
theorem InstallChart_of_config_error {σ : Type} (E : Engine σ) (env : Environ) (s : Server)
    (params : ChartInstallRequest) (w : σ) (err : String)
    (hcfg : (s.GetActionConfig E env params.Namespace w).result = .error err) :
    (s.InstallChart E env params w).result =
      .error ("failed to create action config: " ++ err) ∧
    (s.InstallChart E env params w).calls =
      (s.GetActionConfig E env params.Namespace w).calls := by
  unfold Server.InstallChart
  simp only [hcfg, and_self]

/-- `InstallChart` when chart location fails. -/
theorem InstallChart_of_locate_error {σ : Type} (E : Engine σ) (env : Environ) (s : Server)
    (params : ChartInstallRequest) (w : σ) (cfg : Configuration) (err : String)
    (hcfg : (s.GetActionConfig E env params.Namespace w).result = .ok cfg)
    (hloc : (E.LocateChart (installAction cfg params).ChartPathOptions params.ChartName
      s.HelmEnv (s.GetActionConfig E env params.Namespace w).world).1 = .error err) :
    (s.InstallChart E env params w).result = .error ("failed to locate chart: " ++ err) ∧
    (s.InstallChart E env params w).calls =
      (s.GetActionConfig E env params.Namespace w).calls ++
        [.locateChart (installAction cfg params).ChartPathOptions params.ChartName
          s.HelmEnv] := by
  unfold Server.InstallChart
  simp only [hcfg]
  rcases hL : E.LocateChart (installAction cfg params).ChartPathOptions params.ChartName
    s.HelmEnv (s.GetActionConfig E env params.Namespace w).world with ⟨res, w1⟩
  rw [hL] at hloc
  simp only at hloc
  subst hloc
  simp

/-- `InstallChart` when chart loading fails. -/
theorem InstallChart_of_load_error {σ : Type} (E : Engine σ) (env : Environ) (s : Server)
    (params : ChartInstallRequest) (w : σ) (cfg : Configuration) (path err : String)
    (hcfg : (s.GetActionConfig E env params.Namespace w).result = .ok cfg)
    (hloc : (E.LocateChart (installAction cfg params).ChartPathOptions params.ChartName
      s.HelmEnv (s.GetActionConfig E env params.Namespace w).world).1 = .ok path)
    (hload : (E.Load path
      (E.LocateChart (installAction cfg params).ChartPathOptions params.ChartName
        s.HelmEnv (s.GetActionConfig E env params.Namespace w).world).2).1 = .error err) :
    (s.InstallChart E env params w).result = .error ("failed to load chart: " ++ err) ∧
    (s.InstallChart E env params w).calls =
      (s.GetActionConfig E env params.Namespace w).calls ++
        [.locateChart (installAction cfg params).ChartPathOptions params.ChartName s.HelmEnv,
         .load path] := by
  unfold Server.InstallChart
  simp only [hcfg]
  rcases hL : E.LocateChart (installAction cfg params).ChartPathOptions params.ChartName
    s.HelmEnv (s.GetActionConfig E env params.Namespace w).world with ⟨res, w1⟩
  rw [hL] at hloc hload
  simp only at hloc hload
  subst hloc
  rcases hD : E.Load path w1 with ⟨res2, w2⟩
  rw [hD] at hload
  simp only at hload
  subst hload
  simp [hD]

/-- `InstallChart` when configuration, chart location and loading succeed. -/
theorem InstallChart_of_chart_loaded {σ : Type} (E : Engine σ) (env : Environ) (s : Server)
    (params : ChartInstallRequest) (w : σ) (cfg : Configuration) (path : String)
    (chart : Chart)
    (hcfg : (s.GetActionConfig E env params.Namespace w).result = .ok cfg)
    (hloc : (E.LocateChart (installAction cfg params).ChartPathOptions params.ChartName
      s.HelmEnv (s.GetActionConfig E env params.Namespace w).world).1 = .ok path)
    (hload : (E.Load path
      (E.LocateChart (installAction cfg params).ChartPathOptions params.ChartName
        s.HelmEnv (s.GetActionConfig E env params.Namespace w).world).2).1 = .ok chart) :
    (s.InstallChart E env params w).result =
      (E.InstallRun (installAction cfg params) chart params.Values
        (E.Load path
          (E.LocateChart (installAction cfg params).ChartPathOptions params.ChartName
            s.HelmEnv (s.GetActionConfig E env params.Namespace w).world).2).2).1 ∧
    (s.InstallChart E env params w).calls =
      (s.GetActionConfig E env params.Namespace w).calls ++
        [.locateChart (installAction cfg params).ChartPathOptions params.ChartName s.HelmEnv,
         .load path, .installRun (installAction cfg params) chart params.Values] := by
  unfold Server.InstallChart
  simp only [hcfg]
  rcases hL : E.LocateChart (installAction cfg params).ChartPathOptions params.ChartName
    s.HelmEnv (s.GetActionConfig E env params.Namespace w).world with ⟨res, w1⟩
  rw [hL] at hloc hload
  simp only at hloc hload
  subst hloc
  rcases hD : E.Load path w1 with ⟨res2, w2⟩
  rw [hD] at hload
  simp only at hload
  subst hload
  simp [hD]

/-- The request fields `InstallChart` copies onto the install action. -/
theorem installAction_copies (cfg : Configuration) (params : ChartInstallRequest) :
    (installAction cfg params).ReleaseName = params.ReleaseName ∧
    (installAction cfg params).Namespace = params.Namespace ∧
    (installAction cfg params).Wait = params.Wait ∧
    (installAction cfg params).DryRun = params.DryRun ∧
    (installAction cfg params).CreateNamespace = params.CreateNamespace ∧
    (installAction cfg params).ClientOnly = params.ClientOnly ∧
    (installAction cfg params).Description = params.Description := by
  unfold installAction
  simp only []
  split_ifs <;> simp [NewInstall]

/-- The timeout `InstallChart` puts on the install action. -/
theorem installAction_timeout (cfg : Configuration) (params : ChartInstallRequest) :
    (installAction cfg params).Timeout =
      if params.Timeout > 0 then wrap64 (params.Timeout * time.Second) else 0 := by
  unfold installAction
  simp only []
  split_ifs <;> simp [NewInstall]

/-- The chart path options `InstallChart` hands to chart location. -/
theorem installAction_chartPathOptions (cfg : Configuration) (params : ChartInstallRequest) :
    (installAction cfg params).ChartPathOptions =
      if params.RepoURL = "" then ChartPathOptions.zero
      else if params.Version = "" then
        { ChartPathOptions.zero with RepoURL := params.RepoURL }
      else { ChartPathOptions.zero with RepoURL := params.RepoURL, Version := params.Version } := by
  unfold installAction
  simp only []
  split_ifs <;> simp_all [NewInstall]

/-- The chart path options `UpgradeChart` hands to chart location. -/
theorem upgradeAction_chartPathOptions (cfg : Configuration) (params : ChartUpgradeRequest) :
    (upgradeAction cfg params).ChartPathOptions =
      if params.RepoURL = "" then ChartPathOptions.zero
      else if params.Version = "" then
        { ChartPathOptions.zero with RepoURL := params.RepoURL }
      else { ChartPathOptions.zero with RepoURL := params.RepoURL, Version := params.Version } := by
  unfold upgradeAction
  simp only []
  split_ifs <;> simp_all [NewUpgrade]

/-- Multiplying a timeout of at most 9223372036 seconds by `time.Second` does not
overflow. -/
theorem wrap64_seconds (t : Int) (h0 : 0 ≤ t) (h1 : t ≤ 9223372036) :
    wrap64 (t * time.Second) = t * time.Second := by
  unfold wrap64 time.Second
  norm_num
  omega

/-- Chart locations over two stretches of the call log. -/
theorem locateCalls_append (xs ys : List Call) :
    locateCalls (xs ++ ys) = locateCalls xs ++ locateCalls ys := by
  simp [locateCalls, List.filterMap_append]

/-- Install runs over two stretches of the call log. -/
theorem installRuns_append (xs ys : List Call) :
    installRuns (xs ++ ys) = installRuns xs ++ installRuns ys := by
  simp [installRuns, List.filterMap_append]

/-- The chart locations `InstallChart` asks for: none when configuration fails,
one otherwise. -/
theorem InstallChart_locateCalls {σ : Type} (E : Engine σ) (env : Environ) (s : Server)
    (params : ChartInstallRequest) (w : σ) :
    (∀ err, (s.GetActionConfig E env params.Namespace w).result = .error err →
      locateCalls (s.InstallChart E env params w).calls = []) ∧
    (∀ cfg, (s.GetActionConfig E env params.Namespace w).result = .ok cfg →
      locateCalls (s.InstallChart E env params w).calls =
        [((installAction cfg params).ChartPathOptions, params.ChartName)]) := by
  have hno := (GetActionConfig_no_action E env s params.Namespace w).2.1
  constructor
  · intro err h
    rw [(InstallChart_of_config_error E env s params w err h).2]
    exact hno
  · intro cfg h
    unfold Server.InstallChart
    simp only [h]
    split
    · simp only [locateCalls_append, hno, List.nil_append]
      rfl
    · split <;> simp only [locateCalls_append, hno, List.nil_append] <;> rfl

/-- The chart locations `UpgradeChart` asks for: none when configuration fails,
one otherwise. -/
theorem UpgradeChart_locateCalls {σ : Type} (E : Engine σ) (env : Environ) (s : Server)
    (params : ChartUpgradeRequest) (w : σ) :
    (∀ err, (s.GetActionConfig E env params.Namespace w).result = .error err →
      locateCalls (s.UpgradeChart E env params w).calls = []) ∧
    (∀ cfg, (s.GetActionConfig E env params.Namespace w).result = .ok cfg →
      locateCalls (s.UpgradeChart E env params w).calls =
        [((upgradeAction cfg params).ChartPathOptions, params.ChartName)]) := by
  have hno := (GetActionConfig_no_action E env s params.Namespace w).2.1
  constructor
  · intro err h
    unfold Server.UpgradeChart
    simp only [h]
    exact hno
  · intro cfg h
    unfold Server.UpgradeChart
    simp only [h]
    split
    · simp only [locateCalls_append, hno, List.nil_append]
      rfl
    · split <;> simp only [locateCalls_append, hno, List.nil_append] <;> rfl

/-- C4, as stated, fails: for a request with release name `web`, chart `nginx`
and a timeout of -5 seconds the install action is run once and succeeds, with
`Timeout` zero, while the request's timeout times one second is -5000000000
nanoseconds. -/
theorem InstallChart_negative_timeout_not_copied :
    ({ webRequest with Timeout := -5 } : ChartInstallRequest).ReleaseName ≠ "" ∧
    ({ webRequest with Timeout := -5 } : ChartInstallRequest).ChartName ≠ "" ∧
    errorMessage ((NewServer plainEnviron).1.InstallChart ledgerEngine plainEnviron
      { webRequest with Timeout := -5 } []).result = none ∧
    (installRuns ((NewServer plainEnviron).1.InstallChart ledgerEngine plainEnviron
      { webRequest with Timeout := -5 } []).calls).map Install.Timeout = [0] ∧
    ({ webRequest with Timeout := -5 } : ChartInstallRequest).Timeout * time.Second
      = -5000000000 ∧
    wrap64 (({ webRequest with Timeout := -5 } : ChartInstallRequest).Timeout * time.Second)
      = -5000000000 := by
  decide

/-- C4, amended: when engine configuration, chart location and chart loading
succeed, `InstallChart` runs the install action exactly once, with ReleaseName,
Namespace, Wait and DryRun equal to the request's; its Timeout is the request's
timeout times one second (in 64-bit duration arithmetic, exact up to 9223372036
seconds) when the request's timeout is not negative, and zero, the action's
default, when it is negative. -/
theorem InstallChart_runs_install_once {σ : Type} (E : Engine σ) (env : Environ)
    (s : Server) (params : ChartInstallRequest) (w : σ) (cfg : Configuration)
    (path : String) (chart : Chart)
    (hcfg : (s.GetActionConfig E env params.Namespace w).result = .ok cfg)
    (hloc : (E.LocateChart (installAction cfg params).ChartPathOptions params.ChartName
      s.HelmEnv (s.GetActionConfig E env params.Namespace w).world).1 = .ok path)
    (hload : (E.Load path
      (E.LocateChart (installAction cfg params).ChartPathOptions params.ChartName
        s.HelmEnv (s.GetActionConfig E env params.Namespace w).world).2).1 = .ok chart) :
    ∃ i : Install,
      installRuns (s.InstallChart E env params w).calls = [i] ∧
      i.ReleaseName = params.ReleaseName ∧ i.Namespace = params.Namespace ∧
      i.Wait = params.Wait ∧ i.DryRun = params.DryRun ∧
      (0 ≤ params.Timeout → i.Timeout = wrap64 (params.Timeout * time.Second)) ∧
      (0 ≤ params.Timeout → params.Timeout ≤ 9223372036 →
        i.Timeout = params.Timeout * time.Second) ∧
      (params.Timeout < 0 → i.Timeout = 0) := by
  have hcalls := (InstallChart_of_chart_loaded E env s params w cfg path chart hcfg hloc hload).2
  have hno := (GetActionConfig_no_action E env s params.Namespace w).1
  have hc := installAction_copies cfg params
  have ht := installAction_timeout cfg params
  have hpos : 0 ≤ params.Timeout →
      (installAction cfg params).Timeout = wrap64 (params.Timeout * time.Second) := by
    intro h0
    rw [ht]
    split_ifs with hgt
    · rfl
    · have hz : params.Timeout = 0 := by omega
      rw [hz]
      decide
  refine ⟨installAction cfg params, ?_, hc.1, hc.2.1, hc.2.2.1, hc.2.2.2.1, hpos, ?_, ?_⟩
  · rw [hcalls, installRuns_append, hno]
    simp [installRuns]
  · intro h0 h1
    rw [hpos h0, wrap64_seconds _ h0 h1]
  · intro hneg
    rw [ht]
    split_ifs with hgt
    · omega
    · rfl

/-- C4, amended, at the request for `web` with a timeout of 30 seconds. -/
theorem InstallChart_runs_install_once_witness :
    ∃ i : Install,
      installRuns ((NewServer plainEnviron).1.InstallChart ledgerEngine plainEnviron
        { webRequest with Timeout := 30 } []).calls = [i] ∧
      i.ReleaseName = "web" ∧ i.Namespace = "default" ∧
      i.Wait = false ∧ i.DryRun = false ∧
      (0 ≤ (30 : Int) → i.Timeout = wrap64 (30 * time.Second)) ∧
      (0 ≤ (30 : Int) → (30 : Int) ≤ 9223372036 → i.Timeout = 30 * time.Second) ∧
      ((30 : Int) < 0 → i.Timeout = 0) :=
  InstallChart_runs_install_once ledgerEngine plainEnviron (NewServer plainEnviron).1
    { webRequest with Timeout := 30 } [] { handle := 1 } "/charts/nginx"
    { Metadata := some { Name := "/charts/nginx", Version := "1.0.0", AppVersion := "1.0" } }
    rfl rfl rfl

/-- C7, as stated, fails: with an empty release name `InstallChart` still asks
the engine to locate chart `nginx` and runs the install action, and the error it
returns is the one of the engine run; with an empty chart name it still asks the
engine to locate the chart, and the error is the one of chart location. -/
theorem InstallChart_empty_names_reach_engine :
    (locateCalls ((NewServer plainEnviron).1.InstallChart ledgerEngine plainEnviron
      { webRequest with ReleaseName := "" } []).calls).map Prod.snd = ["nginx"] ∧
    (installRuns ((NewServer plainEnviron).1.InstallChart ledgerEngine plainEnviron
      { webRequest with ReleaseName := "" } []).calls).map Install.ReleaseName = [""] ∧
    errorMessage ((NewServer plainEnviron).1.InstallChart ledgerEngine plainEnviron
      { webRequest with ReleaseName := "" } []).result = some "release name is invalid" ∧
    (locateCalls ((NewServer plainEnviron).1.InstallChart ledgerEngine plainEnviron
      { webRequest with ChartName := "" } []).calls).map Prod.snd = [""] ∧
    errorMessage ((NewServer plainEnviron).1.InstallChart ledgerEngine plainEnviron
      { webRequest with ChartName := "" } []).result =
        some "failed to locate chart: chart name is empty" := by
  decide

/-- C7, amended: `InstallChart` checks no request field itself.  For every
request, empty names included: when engine configuration fails it returns that
error, wrapped, and neither locates a chart nor runs the install action; when
configuration succeeds it asks the engine once to locate the chart under the
request's ChartName; a failure of location or of loading is returned, wrapped,
without an install run; and when both succeed it runs the install action once,
under the request's ReleaseName, and returns what that run returns. -/
theorem InstallChart_delegates_validation {σ : Type} (E : Engine σ) (env : Environ)
    (s : Server) (params : ChartInstallRequest) (w : σ) :
    (∀ err, (s.GetActionConfig E env params.Namespace w).result = .error err →
      (s.InstallChart E env params w).result =
        .error ("failed to create action config: " ++ err) ∧
      locateCalls (s.InstallChart E env params w).calls = [] ∧
      installRuns (s.InstallChart E env params w).calls = []) ∧
    (∀ cfg, (s.GetActionConfig E env params.Namespace w).result = .ok cfg →
      (installAction cfg params).ReleaseName = params.ReleaseName ∧
      locateCalls (s.InstallChart E env params w).calls =
        [((installAction cfg params).ChartPathOptions, params.ChartName)] ∧
      (∀ err, (E.LocateChart (installAction cfg params).ChartPathOptions params.ChartName
          s.HelmEnv (s.GetActionConfig E env params.Namespace w).world).1 = .error err →
        (s.InstallChart E env params w).result =
          .error ("failed to locate chart: " ++ err) ∧
        installRuns (s.InstallChart E env params w).calls = []) ∧
      (∀ path, (E.LocateChart (installAction cfg params).ChartPathOptions params.ChartName
          s.HelmEnv (s.GetActionConfig E env params.Namespace w).world).1 = .ok path →
        (∀ err, (E.Load path
            (E.LocateChart (installAction cfg params).ChartPathOptions params.ChartName
              s.HelmEnv (s.GetActionConfig E env params.Namespace w).world).2).1
              = .error err →
          (s.InstallChart E env params w).result =
            .error ("failed to load chart: " ++ err) ∧
          installRuns (s.InstallChart E env params w).calls = []) ∧
        (∀ chart, (E.Load path
            (E.LocateChart (installAction cfg params).ChartPathOptions params.ChartName
              s.HelmEnv (s.GetActionConfig E env params.Namespace w).world).2).1
              = .ok chart →
          (s.InstallChart E env params w).result =
            (E.InstallRun (installAction cfg params) chart params.Values
              (E.Load path
                (E.LocateChart (installAction cfg params).ChartPathOptions params.ChartName
                  s.HelmEnv (s.GetActionConfig E env params.Namespace w).world).2).2).1 ∧
          installRuns (s.InstallChart E env params w).calls =
            [installAction cfg params]))) := by
  have hno := (GetActionConfig_no_action E env s params.Namespace w).1
  have hloc := InstallChart_locateCalls E env s params w
  constructor
  · intro err h
    have h1 := InstallChart_of_config_error E env s params w err h
    exact ⟨h1.1, hloc.1 err h, by rw [h1.2]; exact hno⟩
  · intro cfg h
    refine ⟨(installAction_copies cfg params).1, hloc.2 cfg h, ?_, ?_⟩
    · intro err hl
      have h1 := InstallChart_of_locate_error E env s params w cfg err h hl
      refine ⟨h1.1, ?_⟩
      rw [h1.2, installRuns_append, hno]
      rfl
    · intro path hl
      constructor
      · intro err hd
        have h1 := InstallChart_of_load_error E env s params w cfg path err h hl hd
        refine ⟨h1.1, ?_⟩
        rw [h1.2, installRuns_append, hno]
        rfl
      · intro chart hd
        have h1 := InstallChart_of_chart_loaded E env s params w cfg path chart h hl hd
        refine ⟨h1.1, ?_⟩
        rw [h1.2, installRuns_append, hno]
        rfl

/-- C7, amended, at a request with an empty release name on the reference
engine: the chart is located and the install action is run under the empty
name. -/
theorem InstallChart_delegates_validation_witness :
    (installAction { handle := 1 } { webRequest with ReleaseName := "" }).ReleaseName = "" ∧
    locateCalls ((NewServer plainEnviron).1.InstallChart ledgerEngine plainEnviron
      { webRequest with ReleaseName := "" } []).calls =
      [((installAction { handle := 1 } { webRequest with ReleaseName := "" }).ChartPathOptions,
        "nginx")] ∧
    installRuns ((NewServer plainEnviron).1.InstallChart ledgerEngine plainEnviron
      { webRequest with ReleaseName := "" } []).calls =
      [installAction { handle := 1 } { webRequest with ReleaseName := "" }] :=
  have h := (InstallChart_delegates_validation ledgerEngine plainEnviron
    (NewServer plainEnviron).1 { webRequest with ReleaseName := "" } []).2 { handle := 1 } rfl
  ⟨h.1, h.2.1, ((h.2.2.2 "/charts/nginx" rfl).2
    { Metadata := some { Name := "/charts/nginx", Version := "1.0.0", AppVersion := "1.0" } }
    rfl).2⟩

/-- The whole outcome of `UpgradeChart` when the engine fails to locate the
chart: the engine was asked with the options of the upgrade action. -/
theorem UpgradeChart_outcome_of_locate_error {σ : Type} (E : Engine σ) (env : Environ)
    (s : Server) (params : ChartUpgradeRequest) (w : σ) (cfg : Configuration) (err : String)
    (hcfg : (s.GetActionConfig E env params.Namespace w).result = .ok cfg)
    (hloc : (E.LocateChart (upgradeAction cfg params).ChartPathOptions params.ChartName
      s.HelmEnv (s.GetActionConfig E env params.Namespace w).world).1 = .error err) :
    s.UpgradeChart E env params w =
      { result := .error ("failed to locate chart: " ++ err),
        world := (E.LocateChart (upgradeAction cfg params).ChartPathOptions params.ChartName
          s.HelmEnv (s.GetActionConfig E env params.Namespace w).world).2,
        calls := (s.GetActionConfig E env params.Namespace w).calls ++
          [.locateChart (upgradeAction cfg params).ChartPathOptions params.ChartName
            s.HelmEnv] } := by
  unfold Server.UpgradeChart
  simp only [hcfg]
  rcases hL : E.LocateChart (upgradeAction cfg params).ChartPathOptions params.ChartName
    s.HelmEnv (s.GetActionConfig E env params.Namespace w).world with ⟨res, w1⟩
  rw [hL] at hloc
  simp only at hloc
  subst hloc
  simp

/-- The whole outcome of `UpgradeChart` when the located chart fails to load. -/
theorem UpgradeChart_outcome_of_load_error {σ : Type} (E : Engine σ) (env : Environ)
    (s : Server) (params : ChartUpgradeRequest) (w : σ) (cfg : Configuration)
    (path err : String)
    (hcfg : (s.GetActionConfig E env params.Namespace w).result = .ok cfg)
    (hloc : (E.LocateChart (upgradeAction cfg params).ChartPathOptions params.ChartName
      s.HelmEnv (s.GetActionConfig E env params.Namespace w).world).1 = .ok path)
    (hload : (E.Load path
      (E.LocateChart (upgradeAction cfg params).ChartPathOptions params.ChartName
        s.HelmEnv (s.GetActionConfig E env params.Namespace w).world).2).1 = .error err) :
    s.UpgradeChart E env params w =
      { result := .error ("failed to load chart: " ++ err),
        world := (E.Load path
          (E.LocateChart (upgradeAction cfg params).ChartPathOptions params.ChartName
            s.HelmEnv (s.GetActionConfig E env params.Namespace w).world).2).2,
        calls := (s.GetActionConfig E env params.Namespace w).calls ++
          [.locateChart (upgradeAction cfg params).ChartPathOptions params.ChartName
            s.HelmEnv, .load path] } := by
  unfold Server.UpgradeChart
  simp only [hcfg]
  rcases hL : E.LocateChart (upgradeAction cfg params).ChartPathOptions params.ChartName
    s.HelmEnv (s.GetActionConfig E env params.Namespace w).world with ⟨res, w1⟩
  rw [hL] at hloc hload
  simp only at hloc hload
  subst hloc
  rcases hD : E.Load path w1 with ⟨res2, w2⟩
  rw [hD] at hload
  simp only at hload
  subst hload
  simp [hD]

/-- The whole outcome of `UpgradeChart` when the chart is located and loaded:
the upgrade action is run on the loaded chart under the request's release
name. -/
theorem UpgradeChart_outcome_of_chart_loaded {σ : Type} (E : Engine σ) (env : Environ)
    (s : Server) (params : ChartUpgradeRequest) (w : σ) (cfg : Configuration)
    (path : String) (chart : Chart)
    (hcfg : (s.GetActionConfig E env params.Namespace w).result = .ok cfg)
    (hloc : (E.LocateChart (upgradeAction cfg params).ChartPathOptions params.ChartName
      s.HelmEnv (s.GetActionConfig E env params.Namespace w).world).1 = .ok path)
    (hload : (E.Load path
      (E.LocateChart (upgradeAction cfg params).ChartPathOptions params.ChartName
        s.HelmEnv (s.GetActionConfig E env params.Namespace w).world).2).1 = .ok chart) :
    s.UpgradeChart E env params w =
      { result := (E.UpgradeRun (upgradeAction cfg params) params.ReleaseName chart
          params.Values (E.Load path
            (E.LocateChart (upgradeAction cfg params).ChartPathOptions params.ChartName
              s.HelmEnv (s.GetActionConfig E env params.Namespace w).world).2).2).1,
        world := (E.UpgradeRun (upgradeAction cfg params) params.ReleaseName chart
          params.Values (E.Load path
            (E.LocateChart (upgradeAction cfg params).ChartPathOptions params.ChartName
              s.HelmEnv (s.GetActionConfig E env params.Namespace w).world).2).2).2,
        calls := (s.GetActionConfig E env params.Namespace w).calls ++
          [.locateChart (upgradeAction cfg params).ChartPathOptions params.ChartName
            s.HelmEnv, .load path,
           .upgradeRun (upgradeAction cfg params) params.ReleaseName chart params.Values] } := by
  unfold Server.UpgradeChart
  simp only [hcfg]
  rcases hL : E.LocateChart (upgradeAction cfg params).ChartPathOptions params.ChartName
    s.HelmEnv (s.GetActionConfig E env params.Namespace w).world with ⟨res, w1⟩
  rw [hL] at hloc hload
  simp only at hloc hload
  subst hloc
  rcases hD : E.Load path w1 with ⟨res2, w2⟩
  rw [hD] at hload
  simp only at hload
  subst hload
  simp [hD]

/-- The whole outcome of `InstallChart` when the engine fails to locate the
chart: the engine was asked with the options of the install action. -/
theorem InstallChart_outcome_of_locate_error {σ : Type} (E : Engine σ) (env : Environ)
    (s : Server) (params : ChartInstallRequest) (w : σ) (cfg : Configuration) (err : String)
    (hcfg : (s.GetActionConfig E env params.Namespace w).result = .ok cfg)
    (hloc : (E.LocateChart (installAction cfg params).ChartPathOptions params.ChartName
      s.HelmEnv (s.GetActionConfig E env params.Namespace w).world).1 = .error err) :
    s.InstallChart E env params w =
      { result := .error ("failed to locate chart: " ++ err),
        world := (E.LocateChart (installAction cfg params).ChartPathOptions params.ChartName
          s.HelmEnv (s.GetActionConfig E env params.Namespace w).world).2,
        calls := (s.GetActionConfig E env params.Namespace w).calls ++
          [.locateChart (installAction cfg params).ChartPathOptions params.ChartName
            s.HelmEnv] } := by
  unfold Server.InstallChart
  simp only [hcfg]
  rcases hL : E.LocateChart (installAction cfg params).ChartPathOptions params.ChartName
    s.HelmEnv (s.GetActionConfig E env params.Namespace w).world with ⟨res, w1⟩
  rw [hL] at hloc
  simp only at hloc
  subst hloc
  simp

/-- The whole outcome of `InstallChart` when the chart is located: loading is
attempted on the located path, and the install action is run on the loaded
chart. -/
theorem InstallChart_outcome_of_located {σ : Type} (E : Engine σ) (env : Environ)
    (s : Server) (params : ChartInstallRequest) (w : σ) (cfg : Configuration)
    (path : String)
    (hcfg : (s.GetActionConfig E env params.Namespace w).result = .ok cfg)
    (hloc : (E.LocateChart (installAction cfg params).ChartPathOptions params.ChartName
      s.HelmEnv (s.GetActionConfig E env params.Namespace w).world).1 = .ok path) :
    (∀ err, (E.Load path
        (E.LocateChart (installAction cfg params).ChartPathOptions params.ChartName
          s.HelmEnv (s.GetActionConfig E env params.Namespace w).world).2).1 = .error err →
      s.InstallChart E env params w =
        { result := .error ("failed to load chart: " ++ err),
          world := (E.Load path
            (E.LocateChart (installAction cfg params).ChartPathOptions params.ChartName
              s.HelmEnv (s.GetActionConfig E env params.Namespace w).world).2).2,
          calls := (s.GetActionConfig E env params.Namespace w).calls ++
            [.locateChart (installAction cfg params).ChartPathOptions params.ChartName
              s.HelmEnv, .load path] }) ∧
    (∀ chart, (E.Load path
        (E.LocateChart (installAction cfg params).ChartPathOptions params.ChartName
          s.HelmEnv (s.GetActionConfig E env params.Namespace w).world).2).1 = .ok chart →
      s.InstallChart E env params w =
        { result := (E.InstallRun (installAction cfg params) chart params.Values
            (E.Load path
              (E.LocateChart (installAction cfg params).ChartPathOptions params.ChartName
                s.HelmEnv (s.GetActionConfig E env params.Namespace w).world).2).2).1,
          world := (E.InstallRun (installAction cfg params) chart params.Values
            (E.Load path
              (E.LocateChart (installAction cfg params).ChartPathOptions params.ChartName
                s.HelmEnv (s.GetActionConfig E env params.Namespace w).world).2).2).2,
          calls := (s.GetActionConfig E env params.Namespace w).calls ++
            [.locateChart (installAction cfg params).ChartPathOptions params.ChartName
              s.HelmEnv, .load path,
             .installRun (installAction cfg params) chart params.Values] }) := by
  unfold Server.InstallChart
  simp only [hcfg]
  rcases hL : E.LocateChart (installAction cfg params).ChartPathOptions params.ChartName
    s.HelmEnv (s.GetActionConfig E env params.Namespace w).world with ⟨res, w1⟩
  rw [hL] at hloc
  simp only at hloc
  subst hloc
  rcases hD : E.Load path w1 with ⟨res2, w2⟩
  constructor
  · intro err hload
    simp only at hload
    subst hload
    simp [hD]
  · intro chart hload
    simp only at hload
    subst hload
    simp [hD]

/-- C10: `InstallChart` and `UpgradeChart` call the engine's chart location
with the same chart path options for the same request fields, and the call they
record is the call they make: the outcome of each is the one the engine gives
at exactly these options.  When the request's RepoURL is empty the options are
the untouched defaults (RepoURL and Version empty, whatever the request's
Version is); when it is not, RepoURL is the request's and Version is the
request's when that is non-empty and stays empty otherwise. -/
theorem chart_path_options_rule {σ : Type} (E : Engine σ) (env : Environ) (s : Server)
    (params : ChartUpgradeRequest) (w : σ) :
    locateCalls (s.InstallChart E env params.toChartInstallRequest w).calls =
      locateCalls (s.UpgradeChart E env params w).calls ∧
    (∀ cfg, (s.GetActionConfig E env params.Namespace w).result = .ok cfg →
      ∃ o : ChartPathOptions,
        locateCalls (s.UpgradeChart E env params w).calls = [(o, params.ChartName)] ∧
        (params.RepoURL = "" → o = ChartPathOptions.zero ∧ o.RepoURL = "" ∧ o.Version = "") ∧
        (params.RepoURL ≠ "" → o.RepoURL = params.RepoURL) ∧
        (params.RepoURL ≠ "" → params.Version ≠ "" → o.Version = params.Version) ∧
        (params.RepoURL ≠ "" → params.Version = "" → o.Version = "") ∧
        (∀ err, (E.LocateChart o params.ChartName s.HelmEnv
            (s.GetActionConfig E env params.Namespace w).world).1 = .error err →
          s.UpgradeChart E env params w =
            { result := .error ("failed to locate chart: " ++ err),
              world := (E.LocateChart o params.ChartName s.HelmEnv
                (s.GetActionConfig E env params.Namespace w).world).2,
              calls := (s.GetActionConfig E env params.Namespace w).calls ++
                [.locateChart o params.ChartName s.HelmEnv] } ∧
          s.InstallChart E env params.toChartInstallRequest w =
            { result := .error ("failed to locate chart: " ++ err),
              world := (E.LocateChart o params.ChartName s.HelmEnv
                (s.GetActionConfig E env params.Namespace w).world).2,
              calls := (s.GetActionConfig E env params.Namespace w).calls ++
                [.locateChart o params.ChartName s.HelmEnv] }) ∧
        (∀ path, (E.LocateChart o params.ChartName s.HelmEnv
            (s.GetActionConfig E env params.Namespace w).world).1 = .ok path →
          (∀ err, (E.Load path (E.LocateChart o params.ChartName s.HelmEnv
              (s.GetActionConfig E env params.Namespace w).world).2).1 = .error err →
            s.UpgradeChart E env params w =
              { result := .error ("failed to load chart: " ++ err),
                world := (E.Load path (E.LocateChart o params.ChartName s.HelmEnv
                  (s.GetActionConfig E env params.Namespace w).world).2).2,
                calls := (s.GetActionConfig E env params.Namespace w).calls ++
                  [.locateChart o params.ChartName s.HelmEnv, .load path] } ∧
            s.InstallChart E env params.toChartInstallRequest w =
              { result := .error ("failed to load chart: " ++ err),
                world := (E.Load path (E.LocateChart o params.ChartName s.HelmEnv
                  (s.GetActionConfig E env params.Namespace w).world).2).2,
                calls := (s.GetActionConfig E env params.Namespace w).calls ++
                  [.locateChart o params.ChartName s.HelmEnv, .load path] }) ∧
          (∀ chart, (E.Load path (E.LocateChart o params.ChartName s.HelmEnv
              (s.GetActionConfig E env params.Namespace w).world).2).1 = .ok chart →
            (upgradeAction cfg params).ChartPathOptions = o ∧
            (installAction cfg params.toChartInstallRequest).ChartPathOptions = o ∧
            s.UpgradeChart E env params w =
              { result := (E.UpgradeRun (upgradeAction cfg params) params.ReleaseName chart
                  params.Values (E.Load path (E.LocateChart o params.ChartName s.HelmEnv
                    (s.GetActionConfig E env params.Namespace w).world).2).2).1,
                world := (E.UpgradeRun (upgradeAction cfg params) params.ReleaseName chart
                  params.Values (E.Load path (E.LocateChart o params.ChartName s.HelmEnv
                    (s.GetActionConfig E env params.Namespace w).world).2).2).2,
                calls := (s.GetActionConfig E env params.Namespace w).calls ++
                  [.locateChart o params.ChartName s.HelmEnv, .load path,
                   .upgradeRun (upgradeAction cfg params) params.ReleaseName chart
                     params.Values] } ∧
            s.InstallChart E env params.toChartInstallRequest w =
              { result := (E.InstallRun (installAction cfg params.toChartInstallRequest)
                  chart params.Values (E.Load path (E.LocateChart o params.ChartName
                    s.HelmEnv (s.GetActionConfig E env params.Namespace w).world).2).2).1,
                world := (E.InstallRun (installAction cfg params.toChartInstallRequest)
                  chart params.Values (E.Load path (E.LocateChart o params.ChartName
                    s.HelmEnv (s.GetActionConfig E env params.Namespace w).world).2).2).2,
                calls := (s.GetActionConfig E env params.Namespace w).calls ++
                  [.locateChart o params.ChartName s.HelmEnv, .load path,
                   .installRun (installAction cfg params.toChartInstallRequest) chart
                     params.Values] }))) ∧
    (∀ o name, (o, name) ∈ locateCalls (s.UpgradeChart E env params w).calls →
      (params.RepoURL = "" →
        o = ChartPathOptions.zero ∧ o.RepoURL = "" ∧ o.Version = "") ∧
      (params.RepoURL ≠ "" → o.RepoURL = params.RepoURL) ∧
      (params.RepoURL ≠ "" → params.Version ≠ "" → o.Version = params.Version) ∧
      (params.RepoURL ≠ "" → params.Version = "" → o.Version = "")) := by
  have hI := InstallChart_locateCalls E env s params.toChartInstallRequest w
  have hU := UpgradeChart_locateCalls E env s params w
  have hsame : ∀ cfg, (installAction cfg params.toChartInstallRequest).ChartPathOptions =
      (upgradeAction cfg params).ChartPathOptions := by
    intro cfg
    rw [installAction_chartPathOptions, upgradeAction_chartPathOptions]
  have hrule : ∀ cfg,
      (params.RepoURL = "" → (upgradeAction cfg params).ChartPathOptions = ChartPathOptions.zero ∧
        (upgradeAction cfg params).ChartPathOptions.RepoURL = "" ∧
        (upgradeAction cfg params).ChartPathOptions.Version = "") ∧
      (params.RepoURL ≠ "" →
        (upgradeAction cfg params).ChartPathOptions.RepoURL = params.RepoURL) ∧
      (params.RepoURL ≠ "" → params.Version ≠ "" →
        (upgradeAction cfg params).ChartPathOptions.Version = params.Version) ∧
      (params.RepoURL ≠ "" → params.Version = "" →
        (upgradeAction cfg params).ChartPathOptions.Version = "") := by
    intro cfg
    rw [upgradeAction_chartPathOptions]
    refine ⟨?_, ?_, ?_, ?_⟩
    · intro h
      simp [h, ChartPathOptions.zero]
    · intro h
      simp only [h, if_false]
      split_ifs <;> rfl
    · intro h hv
      simp [h, hv]
    · intro h hv
      simp [h, hv, ChartPathOptions.zero]
  cases hres : (s.GetActionConfig E env params.Namespace w).result with
  | error err =>
    refine ⟨by rw [hI.1 err hres, hU.1 err hres], ?_, ?_⟩
    · intro cfg h
      cases h
    · intro o name hmem
      rw [hU.1 err hres] at hmem
      cases hmem
  | ok cfg =>
    refine ⟨by rw [hI.2 cfg hres, hU.2 cfg hres, hsame], ?_, ?_⟩
    · intro cfg2 h
      cases h
      obtain ⟨r1, r2, r3, r4⟩ := hrule cfg
      refine ⟨(upgradeAction cfg params).ChartPathOptions, hU.2 cfg hres, r1, r2, r3, r4,
        ?_, ?_⟩
      · intro err hloc
        refine ⟨UpgradeChart_outcome_of_locate_error E env s params w cfg err hres hloc, ?_⟩
        have hloc2 := hloc
        rw [← hsame cfg] at hloc2
        have h1 := InstallChart_outcome_of_locate_error E env s params.toChartInstallRequest
          w cfg err hres hloc2
        rw [hsame cfg] at h1
        exact h1
      · intro path hloc
        have hloc2 := hloc
        rw [← hsame cfg] at hloc2
        have h1 := InstallChart_outcome_of_located E env s params.toChartInstallRequest
          w cfg path hres hloc2
        constructor
        · intro err hload
          refine ⟨UpgradeChart_outcome_of_load_error E env s params w cfg path err hres hloc
            hload, ?_⟩
          have hload2 := hload
          rw [← hsame cfg] at hload2
          have h2 := h1.1 err hload2
          rw [hsame cfg] at h2
          exact h2
        · intro chart hload
          refine ⟨rfl, hsame cfg, UpgradeChart_outcome_of_chart_loaded E env s params w cfg
            path chart hres hloc hload, ?_⟩
          have hload2 := hload
          rw [← hsame cfg] at hload2
          have h2 := h1.2 chart hload2
          rw [hsame cfg] at h2
          exact h2
    · intro o name hmem
      rw [hU.2 cfg hres, List.mem_singleton, Prod.mk.injEq] at hmem
      obtain ⟨ho, _⟩ := hmem
      rw [ho]
      exact hrule cfg

/-- C10 at an upgrade request naming version 1.2.3 without a repository URL, on
the reference engine: chart location is asked with the default options, the
version is not passed on, and the upgrade goes through. -/
theorem chart_path_options_rule_witness :
    ∃ o : ChartPathOptions,
      locateCalls ((NewServer plainEnviron).1.UpgradeChart ledgerEngine plainEnviron
        { toChartInstallRequest := { webRequest with Version := "1.2.3" },
          ReuseValues := false, ResetValues := false, Force := false } []).calls =
        [(o, "nginx")] ∧
      (o = ChartPathOptions.zero ∧ o.RepoURL = "" ∧ o.Version = "") ∧
      errorMessage ((NewServer plainEnviron).1.UpgradeChart ledgerEngine plainEnviron
        { toChartInstallRequest := { webRequest with Version := "1.2.3" },
          ReuseValues := false, ResetValues := false, Force := false } []).result = none :=
  match (chart_path_options_rule ledgerEngine plainEnviron (NewServer plainEnviron).1
    { toChartInstallRequest := { webRequest with Version := "1.2.3" },
      ReuseValues := false, ResetValues := false, Force := false } []).2.1
    { handle := 1 } rfl with
  | ⟨o, hcalls, hempty, _, _, _, _, hloc⟩ =>
    ⟨o, hcalls, hempty rfl, by
      rw [((hloc "/charts/nginx" rfl).2
        { Metadata := some { Name := "/charts/nginx", Version := "1.0.0",
                             AppVersion := "1.0" } } rfl).2.2.1]
      rfl⟩

/-! ## Release history (`GetReleaseHistory`) -/

/-- `GetReleaseHistory` sets `Max` to 256 on the history action, runs it once
and returns its result as it is. -/
theorem GetReleaseHistory_of_config_ok {σ : Type} (E : Engine σ) (env : Environ)
    (s : Server) (name ns : String) (w : σ) (cfg : Configuration)
    (hcfg : (s.GetActionConfig E env ns w).result = .ok cfg) :
    historyRuns (s.GetReleaseHistory E env name ns w).calls = [{ cfg := cfg, Max := 256 }] ∧
    (s.GetReleaseHistory E env name ns w).result =
      (E.HistoryRun { cfg := cfg, Max := 256 } name (s.GetActionConfig E env ns w).world).1 := by
  have hno := (GetActionConfig_no_action E env s ns w).2.2
  unfold Server.GetReleaseHistory
  simp only [hcfg, NewHistory, and_true]
  simp only [historyRuns, List.filterMap_append] at hno ⊢
  rw [hno]
  rfl

/-- C6 at a release with 300 stored revisions, on an engine whose history
action returns the stored revisions as Helm's does: `GetReleaseHistory` runs the
history action with `Max` 256 and returns all 300 entries, not 256. -/
theorem GetReleaseHistory_returns_300_entries :
    (historyRuns ((NewServer plainEnviron).1.GetReleaseHistory ledgerEngine plainEnviron
      "web" "default" (webLedger 300)).calls).map History.Max = [256] ∧
    ((NewServer plainEnviron).1.GetReleaseHistory ledgerEngine plainEnviron
      "web" "default" (webLedger 300)).result.toOption.map List.length = some 300 := by
  set_option maxRecDepth 100000 in
  decide

/-! ## Process bootstrap (`NewServer`) -/

/-- Splitting never gives the empty list. -/
theorem splitSlash_ne_nil (l : List Char) : splitSlash l ≠ [] := by
  cases l with
  | nil => simp [splitSlash]
  | cons c cs =>
    unfold splitSlash
    split
    · simp
    · split_ifs <;> simp

/-- Splitting distributes over a slash. -/
theorem splitSlash_append_slash (xs ys : List Char) :
    splitSlash (xs ++ '/' :: ys) = splitSlash xs ++ splitSlash ys := by
  induction xs with
  | nil =>
    have h := splitSlash_ne_nil ys
    cases hy : splitSlash ys with
    | nil => exact absurd hy h
    | cons y rest => simp [splitSlash, hy]
  | cons c cs ih =>
    have h := splitSlash_ne_nil cs
    cases hc : splitSlash cs with
    | nil => exact absurd hc h
    | cons x rest =>
      simp only [List.cons_append, splitSlash, List.append_eq]
      rw [ih, hc]
      split_ifs <;> simp

/-- The accumulating loop of `String.intercalate` over two stretches. -/
theorem intercalate_go_append (acc s : String) (xs ys : List String) :
    String.intercalate.go acc s (xs ++ ys) =
      String.intercalate.go (String.intercalate.go acc s xs) s ys := by
  induction xs generalizing acc with
  | nil => simp [String.intercalate.go]
  | cons x xs ih => simp [String.intercalate.go, ih]

/-- Two more elements after a non-empty list. -/
theorem intercalate_append_two (s : String) (xs : List String) (a b : String)
    (h : xs ≠ []) :
    String.intercalate s (xs ++ [a, b]) = String.intercalate s xs ++ s ++ a ++ s ++ b := by
  cases xs with
  | nil => exact absurd rfl h
  | cons x xs =>
    simp [String.intercalate, intercalate_go_append, String.intercalate.go]

/-- The stack of `filepath.Clean` after the elements of `.kube/config`. -/
theorem cleanStep_kube_config (r : Bool) (S : List (List Char)) :
    List.foldl (cleanStep r) S (splitSlash ".kube/config".data) =
      S ++ [".kube".data, "config".data] := by
  have hsplit : splitSlash ".kube/config".data = [".kube".data, "config".data] := by decide
  rw [hsplit]
  simp [List.foldl, cleanStep]

/-- Joining `.kube` and `config` onto a clean home directory other than the
root and the current directory appends `/.kube/config` to it. -/
theorem filepath.Join_clean_home (home : String) (hclean : filepath.Clean home = home)
    (hroot : home ≠ "/") (hdot : home ≠ ".") :
    filepath.Join [home, ".kube", "config"] = home ++ "/.kube/config" := by
  have hne : home ≠ "" := by
    intro h
    rw [h] at hclean
    revert hclean
    decide
  have hdata : home.data ≠ [] := by
    intro h
    apply hne
    exact String.ext h
  have hP : String.intercalate "/" [home, ".kube", "config"] = home ++ "/.kube/config" := by
    simp [String.intercalate, String.intercalate.go, String.append_assoc]
  have hPd : (home ++ "/.kube/config").data = home.data ++ '/' :: ".kube/config".data := by
    rw [String.data_append]
  have hPne : home ++ "/.kube/config" ≠ "" := by
    intro h
    have := congrArg String.data h
    rw [hPd] at this
    simp at this
  have hhead : (home ++ "/.kube/config").data.head? = home.data.head? := by
    rw [hPd]
    cases hd : home.data with
    | nil => exact absurd hd hdata
    | cons c cs => rfl
  have hb : (home == "") = false := by simp [hne]
  unfold filepath.Join
  simp only [List.dropWhile, hb]
  rw [hP]
  unfold filepath.Clean at hclean ⊢
  simp only [hne, hPne, if_false] at hclean ⊢
  rw [hhead, hPd, splitSlash_append_slash, List.foldl_append]
  generalize (home.data.head? == some '/') = r at hclean ⊢
  generalize List.foldl (cleanStep r) [] (splitSlash home.data) = S at hclean ⊢
  rw [cleanStep_kube_config, List.map_append]
  have hlit : "/" ++ (".kube" ++ ("/" ++ "config")) = "/.kube/config" := by decide
  by_cases hout : (if r = true then "/" else "") ++
      String.intercalate "/" (List.map String.mk S) = ""
  · rw [if_pos hout] at hclean
    exact absurd hclean.symm hdot
  · rw [if_neg hout] at hclean
    have hS : List.map String.mk S ≠ [] := by
      intro h
      rw [h] at hclean
      cases r
      · exact hne (by rw [← hclean]; decide)
      · exact hroot (by rw [← hclean]; decide)
    have hjoin : (if r = true then "/" else "") ++
        String.intercalate "/" (List.map String.mk S ++ List.map String.mk
          [".kube".data, "config".data]) = home ++ "/.kube/config" := by
      have hm : List.map String.mk [".kube".data, "config".data] = [".kube", "config"] := rfl
      rw [hm, intercalate_append_two _ _ _ _ hS]
      simp only [String.append_assoc, hlit]
      rw [← String.append_assoc, hclean]
    rw [hjoin, if_neg hPne]

/-- C9: `NewServer` always returns a server; its `KubeConfig` is the value of
`KUBECONFIG` when that is non-empty; otherwise, when the home directory
resolves, it is `filepath.Join` of the home directory, `.kube` and `config`,
which for a home directory in clean form (other than the root and the current
directory) is the home directory followed by `/.kube/config`; otherwise it is
the empty path and the failure is only logged. -/
theorem NewServer_kubeconfig (env : Environ) :
    (env.Getenv "KUBECONFIG" ≠ "" →
      (NewServer env).1.KubeConfig = env.Getenv "KUBECONFIG" ∧ (NewServer env).2 = []) ∧
    (∀ home, env.Getenv "KUBECONFIG" = "" → env.UserHomeDir = .ok home →
      (NewServer env).1.KubeConfig = filepath.Join [home, ".kube", "config"] ∧
      (NewServer env).2 = []) ∧
    (∀ home, env.Getenv "KUBECONFIG" = "" → env.UserHomeDir = .ok home →
      filepath.Clean home = home → home ≠ "/" → home ≠ "." →
      (NewServer env).1.KubeConfig = home ++ "/.kube/config") ∧
    (∀ err, env.Getenv "KUBECONFIG" = "" → env.UserHomeDir = .error err →
      (NewServer env).1.KubeConfig = "" ∧
      (NewServer env).2 = ["Failed to get user home directory: " ++ err]) := by
  have hjoin : ∀ home, env.Getenv "KUBECONFIG" = "" → env.UserHomeDir = .ok home →
      (NewServer env).1.KubeConfig = filepath.Join [home, ".kube", "config"] ∧
      (NewServer env).2 = [] := by
    intro home h hh
    simp [NewServer, Server.setupRoutes, h, hh]
  refine ⟨?_, hjoin, ?_, ?_⟩
  · intro h
    simp [NewServer, Server.setupRoutes, h]
  · intro home h hh hclean hroot hdot
    rw [(hjoin home h hh).1, filepath.Join_clean_home home hclean hroot hdot]
  · intro err h hh
    simp [NewServer, Server.setupRoutes, h, hh]

/-- C9 at a process without `KUBECONFIG` whose home directory is `/home/app`,
and at one whose home directory does not resolve. -/
theorem NewServer_kubeconfig_witness :
    ((NewServer plainEnviron).1.KubeConfig = filepath.Join ["/home/app", ".kube", "config"] ∧
      (NewServer plainEnviron).2 = []) ∧
    (NewServer plainEnviron).1.KubeConfig = "/home/app" ++ "/.kube/config" ∧
    ((NewServer { plainEnviron with UserHomeDir := .error "$HOME is not defined" }).1.KubeConfig
        = "" ∧
      (NewServer { plainEnviron with UserHomeDir := .error "$HOME is not defined" }).2 =
        ["Failed to get user home directory: " ++ "$HOME is not defined"]) :=
  ⟨(NewServer_kubeconfig plainEnviron).2.1 "/home/app" rfl rfl,
    (NewServer_kubeconfig plainEnviron).2.2.1 "/home/app" rfl rfl
      (by decide) (by decide) (by decide),
    (NewServer_kubeconfig
      { plainEnviron with UserHomeDir := .error "$HOME is not defined" }).2.2.2
      "$HOME is not defined" rfl rfl⟩

end HelmRest
